import Mathlib

/-!
# Distributed-transaction filter for MySQL prepared statements

A shallow embedding of `pkg/filter/dt/filter_mysql.go`: the hint scan
`hasXIDHint`, the bounded branch-registration loop
`registerBranchTransaction`, and the `PreHandle` / `PostHandle` hook pair with
their per-statement handlers.

Every call into a collaborator (coordinator, undo-log store, executors,
logger, `time.Sleep`, context variables) is recorded as an `Event`; a function
of the filter returns its Go result together with the list of events it
emitted, in program order. A Go `error` result is an `Option GoError`, `none`
being nil. An interface value on which the code asserts a type
(`conn.(*driver.BackendConnection)`, `bi.(*schema.TableRecords)`,
`hint.HintData.(model.CIStr)`) is given the asserted type. Branch IDs
(`int64`) are never computed with and the loop counter never exceeds
`lockRetryTimes`, so both are integers without a width.
-/

namespace Dbpack

/-! ## Go errors -/

/-- A Go error value: a leaf created by `errors.New` (or a package-level
sentinel), or an error wrapping a cause. -/
inductive GoError where
  | leaf (msg : String)
  | wrap (msg : String) (cause : GoError)
  deriving DecidableEq, Repr

/-- The function `errors.New`. -/
def errorsNew (msg : String) : GoError := GoError.leaf msg

/-- The function `errors.Is err target`: `target` occurs on the unwrap chain
of `err`. -/
def errorsIs : GoError → GoError → Bool
  | GoError.leaf m, target => decide (GoError.leaf m = target)
  | GoError.wrap m c, target => decide (GoError.wrap m c = target) || errorsIs c target

/-- Modelled from the spec: the sentinel `err2.BranchLockAcquireFailed` of
`pkg/errors`, the distinguished error kind meaning "lock held by another
branch". -/
def BranchLockAcquireFailed : GoError := GoError.leaf "BranchLockAcquireFailed"

/-! ## Constants of the file -/

def mysqlFilterName : String := "MysqlDistributedTransaction"
def beforeImage : String := "BeforeImage"
def hintXID : String := "xid"

/-! ## The statement model consumed from the parser -/

/-- The type `model.CIStr`: a case-insensitive string, `O` the original text
and `L` its lower-case form. -/
structure CIStr where
  O : String
  L : String
  deriving DecidableEq, Repr

/-- The method `CIStr.String`: the original text. -/
def CIStr.String (s : CIStr) : String := s.O

/-- The type `ast.TableOptimizerHint`. `HintData` is declared `interface{}` in
the parser; `hasXIDHint` asserts `model.CIStr` on the payload of a hint it
selects, which is the payload type the parser attaches to an `xid` hint, so
the embedding gives the field that type. -/
structure TableOptimizerHint where
  HintName : CIStr
  HintData : CIStr
  deriving DecidableEq, Repr

/-- One step of `strings.EqualFold` on a pair of runes: equal, or one is an
upper-case ASCII letter and the other its lower-case form. -/
def foldEqRune (sr tr : Char) : Bool :=
  if tr = sr then true
  else
    let lo := if sr.toNat < tr.toNat then sr else tr
    let hi := if sr.toNat < tr.toNat then tr else sr
    if hi.toNat < 0x80 then
      decide ('A'.toNat ≤ lo.toNat ∧ lo.toNat ≤ 'Z'.toNat ∧ hi.toNat = lo.toNat + 'a'.toNat - 'A'.toNat)
    else false

/-- The loop of `strings.EqualFold` over two rune sequences. -/
def equalFoldRunes : List Char → List Char → Bool
  | [], [] => true
  | sr :: s, tr :: t => foldEqRune sr tr && equalFoldRunes s t
  | _, _ => false

/-- The function `strings.EqualFold`, with the simple case folding of ASCII
letters. A rune pair whose larger member is not ASCII is reported unequal
unless identical: the Unicode fold orbits of `x`, `i` and `d` hold only their
ASCII upper-case forms, so against `hintXID` this is what Go computes. -/
def equalFold (s t : String) : Bool := equalFoldRunes s.toList t.toList

/-- Bound parameter values of a prepared statement. -/
abbrev BindVars := List (String × String)

structure DeleteStmt where
  TableHints : List TableOptimizerHint
  deriving DecidableEq, Repr

structure InsertStmt where
  TableHints : List TableOptimizerHint
  deriving DecidableEq, Repr

structure UpdateStmt where
  TableHints : List TableOptimizerHint
  deriving DecidableEq, Repr

/-- The type `ast.SelectLockType`. -/
inductive SelectLockType where
  | SelectLockNone
  | SelectLockForUpdate
  | SelectLockForShare
  | SelectLockForUpdateNoWait
  deriving DecidableEq, Repr

structure SelectLockInfo where
  LockType : SelectLockType
  deriving DecidableEq, Repr

structure SelectStmt where
  TableHints : List TableOptimizerHint
  LockInfo : Option SelectLockInfo
  deriving DecidableEq, Repr

/-- The dynamic type of `stmt.StmtNode`; `other` stands for every node type
the hooks do not dispatch on, with whatever hints it carries. -/
inductive StmtNode where
  | delete (s : DeleteStmt)
  | insert (s : InsertStmt)
  | update (s : UpdateStmt)
  | select (s : SelectStmt)
  | other (hints : List TableOptimizerHint)
  deriving DecidableEq, Repr

/-- The type `proto.Stmt`, as far as the filter reads it. -/
structure Stmt where
  StmtNode : StmtNode
  BindVars : BindVars
  deriving DecidableEq, Repr

/-- The statement kinds that leave an undo log: DELETE, INSERT and UPDATE. -/
def StmtNode.isDML : StmtNode → Bool
  | StmtNode.delete _ => true
  | StmtNode.insert _ => true
  | StmtNode.update _ => true
  | _ => false

/-- The table hints of a statement node. -/
def StmtNode.hints : StmtNode → List TableOptimizerHint
  | StmtNode.delete s => s.TableHints
  | StmtNode.insert s => s.TableHints
  | StmtNode.update s => s.TableHints
  | StmtNode.select s => s.TableHints
  | StmtNode.other hs => hs

/-! ## Images, undo items, requests -/

/-- Modelled from the spec: `schema.TableRecords` (the spec's RowImage), a
named table's snapshot of zero or more rows, each row a mapping of column name
to value. -/
structure TableRecords where
  TableName : String
  Rows : List (List (String × String))
  deriving DecidableEq, Repr

/-- The operation kinds `constant.SQLType_*` used by the filter. -/
inductive SQLType where
  | SQLType_INSERT
  | SQLType_UPDATE
  | SQLType_DELETE
  deriving DecidableEq, Repr

/-- Modelled from the spec: the undo-log item, {operation kind, schema name,
table name, lock key string, before-image (nullable), after-image
(nullable)}. -/
structure UndoLogItem where
  sqlType : SQLType
  schemaName : String
  tableName : String
  lockKey : String
  beforeImage : Option TableRecords
  afterImage : Option TableRecords
  deriving DecidableEq, Repr

/-- Modelled from the spec: `buildUndoItem`, absent from the sources here; a
pure function (operation kind, schema, table, lock key, before-image,
after-image) to the undo-log item holding exactly those six values. -/
def buildUndoItem (sqlType : SQLType) (schemaName tableName lockKey : String)
    (before after : Option TableRecords) : UndoLogItem :=
  { sqlType := sqlType, schemaName := schemaName, tableName := tableName,
    lockKey := lockKey, beforeImage := before, afterImage := after }

/-- The branch type `api.AT` (the only one the filter sends). -/
inductive BranchType where
  | AT
  deriving DecidableEq, Repr

/-- The type `api.BranchRegisterRequest`. -/
structure BranchRegisterRequest where
  Addressing : String
  XID : String
  ResourceID : String
  LockKey : String
  BranchType : BranchType
  ApplicationData : Option String
  Async : Bool
  deriving DecidableEq, Repr

/-- The type `driver.BackendConnection`, as far as the filter reads it. -/
structure BackendConnection where
  DataSourceName : String
  deriving DecidableEq, Repr

/-- The type `proto.Result` of a statement execution. -/
structure Result where
  LastInsertId : Nat
  AffectedRows : Nat
  deriving DecidableEq, Repr

/-! ## Per-execution context -/

/-- The request context, as far as the filter reads it: the command kind, the
prepared statement, the variable map (absent when the context carries none)
and the schema name. -/
structure Ctx where
  commandType : Nat
  prepareStmt : Option Stmt
  vars : Option (List (String × TableRecords))
  schema : String
  deriving DecidableEq, Repr

/-- The function `proto.CommandType`. -/
def CommandType (ctx : Ctx) : Nat := ctx.commandType

/-- The function `proto.PrepareStmt`. -/
def PrepareStmt (ctx : Ctx) : Option Stmt := ctx.prepareStmt

/-- The function `proto.Schema`. -/
def Schema (ctx : Ctx) : String := ctx.schema

/-- Modelled from the spec: `proto.Variable`, the get of a named variable of
the per-execution context; `none` is Go's nil. -/
def Variable (ctx : Ctx) (key : String) : Option TableRecords :=
  match ctx.vars with
  | none => none
  | some vs => vs.lookup key

/-- Modelled from the spec: `proto.WithVariable`, the set of a named variable
of the per-execution context; it reports whether the value was stored. -/
def WithVariable (ctx : Ctx) (key : String) (value : TableRecords) : Bool × Ctx :=
  match ctx.vars with
  | none => (false, ctx)
  | some vs => (true, { ctx with vars := some ((key, value) :: vs) })

/-! ## Executors -/

structure deleteExecutor where
  conn : BackendConnection
  stmt : DeleteStmt
  args : BindVars
  deriving DecidableEq, Repr

structure insertExecutor where
  conn : BackendConnection
  stmt : InsertStmt
  args : BindVars
  deriving DecidableEq, Repr

structure updateExecutor where
  conn : BackendConnection
  stmt : UpdateStmt
  args : BindVars
  deriving DecidableEq, Repr

structure selectForUpdateExecutor where
  xid : String
  conn : BackendConnection
  stmt : SelectStmt
  args : BindVars
  lockRetryInterval : Int
  lockRetryTimes : Int
  deriving DecidableEq, Repr

/-! ## Events and collaborators -/

/-- The argument of a log line. -/
inductive LogArg where
  | str (s : String)
  | int (n : Int)
  | err (e : GoError)
  deriving DecidableEq, Repr

/-- One observable call into a collaborator. -/
inductive Event where
  | branchRegisterLocal (req : BranchRegisterRequest)
  | sleep (d : Int)
  | logErrorf (format : String) (arg : LogArg)
  | logDebugf (format : String) (arg : LogArg)
  | insertUndoLogWithNormal (conn : BackendConnection) (xid : String) (branchID : Int)
      (undoLog : UndoLogItem)
  | withVariable (key : String) (value : TableRecords)
  | beforeImageQuery (kind : SQLType)
  | afterImageQuery (kind : SQLType)
  | selectForUpdateExecute (xid : String)
  deriving DecidableEq, Repr

/-- The collaborators of the filter whose code is not part of this file.
The executors are modelled from the spec: each image method returns a row
image or fails. `BranchRegisterLocal` is indexed by the number of calls the
running registration has already made, and returns Go's pair of branch ID and
error (`none` is nil). -/
structure Env where
  ComStmtExecute : Nat
  deleteBeforeImage : deleteExecutor → Ctx → Except GoError TableRecords
  updateBeforeImage : updateExecutor → Ctx → Except GoError TableRecords
  insertAfterImage : insertExecutor → Ctx → Result → Except GoError TableRecords
  updateAfterImage : updateExecutor → Ctx → TableRecords → Except GoError TableRecords
  selectForUpdateExecute : selectForUpdateExecutor → Ctx → Result → Option GoError
  deleteGetTableName : deleteExecutor → String
  insertGetTableName : insertExecutor → String
  updateGetTableName : updateExecutor → String
  BuildLockKey : Option TableRecords → String
  BranchRegisterLocal : Nat → BranchRegisterRequest → Int × Option GoError
  InsertUndoLogWithNormal : BackendConnection → String → Int → UndoLogItem → Option GoError

/-! ## The filter -/

/-- The struct `_mysqlFilter`; durations are nanoseconds. -/
structure _mysqlFilter where
  addressing : String
  lockRetryInterval : Int
  lockRetryTimes : Int
  deriving DecidableEq, Repr

/-- The anonymous struct `v` of `NewFilter` after `json.Unmarshal`, with Go's
zero values for the keys the configuration omits. -/
structure FilterConfig where
  Addressing : String
  LockRetryIntervalStr : String
  LockRetryTimes : Int
  deriving DecidableEq, Repr

/-- The constant `time.Millisecond`, in nanoseconds. -/
def Millisecond : Int := 1000000

/-- The method `mysqlFactory.NewFilter`. `decode` stands for `json.Marshal`
followed by `json.Unmarshal` into `v`, `parseDuration` for
`time.ParseDuration`. -/
def NewFilter {Config : Type} (decode : Config → Except GoError FilterConfig)
    (parseDuration : String → Option Int) (config : Config) : Except GoError _mysqlFilter :=
  match decode config with
  | Except.error err => Except.error err
  | Except.ok v =>
    let lockRetryInterval :=
      match parseDuration v.LockRetryIntervalStr with
      | some d => d
      | none => 50 * Millisecond
    Except.ok
      { addressing := v.Addressing,
        lockRetryInterval := lockRetryInterval,
        lockRetryTimes := v.LockRetryTimes }

/-- The function `hasXIDHint`. -/
def hasXIDHint : List TableOptimizerHint → Bool × String
  | [] => (false, "")
  | hint :: hints =>
    if equalFold hint.HintName.String hintXID then
      let hintData := hint.HintData
      let xid := hintData.String
      (true, xid)
    else hasXIDHint hints

/-- The request `registerBranchTransaction` sends on every attempt. -/
def _mysqlFilter.branchRegisterRequest (f : _mysqlFilter) (xid resourceID lockKey : String) :
    BranchRegisterRequest :=
  { Addressing := f.addressing, XID := xid, ResourceID := resourceID, LockKey := lockKey,
    BranchType := BranchType.AT, ApplicationData := none, Async := true }

/-- The `for` loop of `registerBranchTransaction`. `remaining` is
`lockRetryTimes - retryCount`, so the loop condition `retryCount <
lockRetryTimes` is `remaining ≠ 0`; `branchID` and `err` are the two local
variables, returned when the loop is left. -/
def _mysqlFilter.registerLoop (f : _mysqlFilter) (env : Env) (req : BranchRegisterRequest) :
    Nat → Nat → Int → Option GoError → (Int × Option GoError) × List Event
  | 0, _, branchID, err => ((branchID, err), [])
  | remaining + 1, retryCount, _, _ =>
    let r := env.BranchRegisterLocal retryCount req
    match r.2 with
    | none => ((r.1, none), [Event.branchRegisterLocal req])
    | some err =>
      if errorsIs err BranchLockAcquireFailed then
        let rest := f.registerLoop env req remaining (retryCount + 1) r.1 (some err)
        (rest.1,
          [Event.branchRegisterLocal req,
            Event.logErrorf "branch register err: %v" (LogArg.err err),
            Event.sleep f.lockRetryInterval] ++ rest.2)
      else
        ((r.1, some err),
          [Event.branchRegisterLocal req,
            Event.logErrorf "branch register err: %v" (LogArg.err err)])

/-- The method `_mysqlFilter.registerBranchTransaction`: the pair
`(branchID, err)` it returns, and the events it emitted. -/
def _mysqlFilter.registerBranchTransaction (f : _mysqlFilter) (env : Env)
    (xid resourceID lockKey : String) : (Int × Option GoError) × List Event :=
  f.registerLoop env (f.branchRegisterRequest xid resourceID lockKey)
    f.lockRetryTimes.toNat 0 0 none

/-- The function `processBeforeDelete`: the error returned, the context after
the call, and the events emitted. -/
def processBeforeDelete (env : Env) (ctx : Ctx) (conn : BackendConnection) (stmt : Stmt)
    (deleteStmt : DeleteStmt) : Option GoError × Ctx × List Event :=
  if (hasXIDHint deleteStmt.TableHints).1 = false then (none, ctx, [])
  else
    let executor : deleteExecutor := { conn := conn, stmt := deleteStmt, args := stmt.BindVars }
    match env.deleteBeforeImage executor ctx with
    | Except.error err => (some err, ctx, [Event.beforeImageQuery SQLType.SQLType_DELETE])
    | Except.ok bi =>
      let stored := WithVariable ctx beforeImage bi
      if stored.1 = false then
        (some (errorsNew "set before image failed"), stored.2,
          [Event.beforeImageQuery SQLType.SQLType_DELETE, Event.withVariable beforeImage bi])
      else
        (none, stored.2,
          [Event.beforeImageQuery SQLType.SQLType_DELETE, Event.withVariable beforeImage bi])

/-- The function `processBeforeUpdate`. -/
def processBeforeUpdate (env : Env) (ctx : Ctx) (conn : BackendConnection) (stmt : Stmt)
    (updateStmt : UpdateStmt) : Option GoError × Ctx × List Event :=
  if (hasXIDHint updateStmt.TableHints).1 = false then (none, ctx, [])
  else
    let executor : updateExecutor := { conn := conn, stmt := updateStmt, args := stmt.BindVars }
    match env.updateBeforeImage executor ctx with
    | Except.error err => (some err, ctx, [Event.beforeImageQuery SQLType.SQLType_UPDATE])
    | Except.ok bi =>
      let stored := WithVariable ctx beforeImage bi
      if stored.1 = false then
        (some (errorsNew "set before image failed"), stored.2,
          [Event.beforeImageQuery SQLType.SQLType_UPDATE, Event.withVariable beforeImage bi])
      else
        (none, stored.2,
          [Event.beforeImageQuery SQLType.SQLType_UPDATE, Event.withVariable beforeImage bi])

/-- The method `_mysqlFilter.PreHandle`. -/
def _mysqlFilter.PreHandle (_f : _mysqlFilter) (env : Env) (ctx : Ctx) (conn : BackendConnection) :
    Option GoError × Ctx × List Event :=
  let bc := conn
  let commandType := CommandType ctx
  if commandType = env.ComStmtExecute then
    match PrepareStmt ctx with
    | none => (some (errorsNew "prepare stmt should not be nil"), ctx, [])
    | some stmt =>
      match stmt.StmtNode with
      | StmtNode.delete stmtNode => processBeforeDelete env ctx bc stmt stmtNode
      | StmtNode.update stmtNode => processBeforeUpdate env ctx bc stmt stmtNode
      | _ => (none, ctx, [])
  else (none, ctx, [])

/-- The method `_mysqlFilter.processAfterDelete`: the error returned and the
events emitted. -/
def _mysqlFilter.processAfterDelete (f : _mysqlFilter) (env : Env) (ctx : Ctx)
    (conn : BackendConnection) (_result : Result) (stmt : Stmt) (deleteStmt : DeleteStmt) :
    Option GoError × List Event :=
  let hx := hasXIDHint deleteStmt.TableHints
  let xid := hx.2
  if hx.1 = false then (none, [])
  else
    let executor : deleteExecutor := { conn := conn, stmt := deleteStmt, args := stmt.BindVars }
    match Variable ctx beforeImage with
    | none => (some (errorsNew "before image should not be nil"), [])
    | some biValue =>
      let schemaName := Schema ctx
      if schemaName = "" then (some (errorsNew "schema name should not be nil"), [])
      else
        let lockKeys := env.BuildLockKey (some biValue)
        let undoLog := buildUndoItem SQLType.SQLType_DELETE schemaName
          (env.deleteGetTableName executor) lockKeys (some biValue) none
        let reg := f.registerBranchTransaction env xid conn.DataSourceName lockKeys
        match reg.1.2 with
        | some err =>
          (some err, Event.logDebugf "delete, lockKey: %s" (LogArg.str lockKeys) :: reg.2)
        | none =>
          let branchID := reg.1.1
          (env.InsertUndoLogWithNormal conn xid branchID undoLog,
            Event.logDebugf "delete, lockKey: %s" (LogArg.str lockKeys) :: reg.2 ++
              [Event.logDebugf "delete, branch id: %d" (LogArg.int branchID),
                Event.insertUndoLogWithNormal conn xid branchID undoLog])

/-- The method `_mysqlFilter.processAfterInsert`. -/
def _mysqlFilter.processAfterInsert (f : _mysqlFilter) (env : Env) (ctx : Ctx)
    (conn : BackendConnection) (result : Result) (stmt : Stmt) (insertStmt : InsertStmt) :
    Option GoError × List Event :=
  let hx := hasXIDHint insertStmt.TableHints
  let xid := hx.2
  if hx.1 = false then (none, [])
  else
    let executor : insertExecutor := { conn := conn, stmt := insertStmt, args := stmt.BindVars }
    match env.insertAfterImage executor ctx result with
    | Except.error err => (some err, [Event.afterImageQuery SQLType.SQLType_INSERT])
    | Except.ok afterImage =>
      let schemaName := Schema ctx
      if schemaName = "" then
        (some (errorsNew "schema name should not be nil"),
          [Event.afterImageQuery SQLType.SQLType_INSERT])
      else
        let lockKeys := env.BuildLockKey (some afterImage)
        let undoLog := buildUndoItem SQLType.SQLType_INSERT schemaName
          (env.insertGetTableName executor) lockKeys none (some afterImage)
        let reg := f.registerBranchTransaction env xid conn.DataSourceName lockKeys
        match reg.1.2 with
        | some err =>
          (some err,
            Event.afterImageQuery SQLType.SQLType_INSERT ::
              Event.logDebugf "insert, lockKey: %s" (LogArg.str lockKeys) :: reg.2)
        | none =>
          let branchID := reg.1.1
          (env.InsertUndoLogWithNormal conn xid branchID undoLog,
            Event.afterImageQuery SQLType.SQLType_INSERT ::
              Event.logDebugf "insert, lockKey: %s" (LogArg.str lockKeys) :: reg.2 ++
              [Event.logDebugf "insert, branch id: %d" (LogArg.int branchID),
                Event.insertUndoLogWithNormal conn xid branchID undoLog])

/-- The method `_mysqlFilter.processAfterUpdate`. -/
def _mysqlFilter.processAfterUpdate (f : _mysqlFilter) (env : Env) (ctx : Ctx)
    (conn : BackendConnection) (_result : Result) (stmt : Stmt) (updateStmt : UpdateStmt) :
    Option GoError × List Event :=
  let hx := hasXIDHint updateStmt.TableHints
  let xid := hx.2
  if hx.1 = false then (none, [])
  else
    let executor : updateExecutor := { conn := conn, stmt := updateStmt, args := stmt.BindVars }
    match Variable ctx beforeImage with
    | none => (some (errorsNew "before image should not be nil"), [])
    | some biValue =>
      match env.updateAfterImage executor ctx biValue with
      | Except.error err => (some err, [Event.afterImageQuery SQLType.SQLType_UPDATE])
      | Except.ok afterImage =>
        let schemaName := Schema ctx
        if schemaName = "" then
          (some (errorsNew "schema name should not be nil"),
            [Event.afterImageQuery SQLType.SQLType_UPDATE])
        else
          let lockKeys := env.BuildLockKey (some afterImage)
          let undoLog := buildUndoItem SQLType.SQLType_UPDATE schemaName
            (env.updateGetTableName executor) lockKeys (some biValue) (some afterImage)
          let reg := f.registerBranchTransaction env xid conn.DataSourceName lockKeys
          match reg.1.2 with
          | some err =>
            (some err,
              Event.afterImageQuery SQLType.SQLType_UPDATE ::
                Event.logDebugf "update, lockKey: %s" (LogArg.str lockKeys) :: reg.2)
          | none =>
            let branchID := reg.1.1
            (env.InsertUndoLogWithNormal conn xid branchID undoLog,
              Event.afterImageQuery SQLType.SQLType_UPDATE ::
                Event.logDebugf "update, lockKey: %s" (LogArg.str lockKeys) :: reg.2 ++
                [Event.logDebugf "update, branch id: %d" (LogArg.int branchID),
                  Event.insertUndoLogWithNormal conn xid branchID undoLog])

/-- The method `_mysqlFilter.processSelectForUpdate`. -/
def _mysqlFilter.processSelectForUpdate (f : _mysqlFilter) (env : Env) (ctx : Ctx)
    (conn : BackendConnection) (result : Result) (stmt : Stmt) (selectStmt : SelectStmt) :
    Option GoError × List Event :=
  let hx := hasXIDHint selectStmt.TableHints
  let xid := hx.2
  if hx.1 = false then (none, [])
  else
    let executor : selectForUpdateExecutor :=
      { xid := xid, conn := conn, stmt := selectStmt, args := stmt.BindVars,
        lockRetryInterval := f.lockRetryInterval, lockRetryTimes := f.lockRetryTimes }
    (env.selectForUpdateExecute executor ctx result, [Event.selectForUpdateExecute xid])

/-- The method `_mysqlFilter.PostHandle`. -/
def _mysqlFilter.PostHandle (f : _mysqlFilter) (env : Env) (ctx : Ctx) (result : Result)
    (conn : BackendConnection) : Option GoError × List Event :=
  let bc := conn
  let commandType := CommandType ctx
  if commandType = env.ComStmtExecute then
    match PrepareStmt ctx with
    | none => (some (errorsNew "prepare stmt should not be nil"), [])
    | some stmt =>
      match stmt.StmtNode with
      | StmtNode.delete stmtNode => f.processAfterDelete env ctx bc result stmt stmtNode
      | StmtNode.insert stmtNode => f.processAfterInsert env ctx bc result stmt stmtNode
      | StmtNode.update stmtNode => f.processAfterUpdate env ctx bc result stmt stmtNode
      | StmtNode.select stmtNode =>
        match stmtNode.LockInfo with
        | some lockInfo =>
          if lockInfo.LockType = SelectLockType.SelectLockForUpdate then
            f.processSelectForUpdate env ctx bc result stmt stmtNode
          else (none, [])
        | none => (none, [])
      | StmtNode.other _ => (none, [])
  else (none, [])

/-! ## Observations on an event list -/

/-- Whether an event is a `BranchRegisterLocal` call. -/
def Event.isRegister : Event → Bool
  | Event.branchRegisterLocal _ => true
  | _ => false

/-- Whether an event is a `time.Sleep`. -/
def Event.isSleep : Event → Bool
  | Event.sleep _ => true
  | _ => false

/-- Whether an event is an `InsertUndoLogWithNormal` call. -/
def Event.isInsertUndoLog : Event → Bool
  | Event.insertUndoLogWithNormal _ _ _ _ => true
  | _ => false

/-- The number of `BranchRegisterLocal` calls among the events. -/
def registerCalls (evs : List Event) : Nat := evs.countP Event.isRegister

/-- The number of `time.Sleep` calls among the events. -/
def sleepCalls (evs : List Event) : Nat := evs.countP Event.isSleep

/-- The number of `InsertUndoLogWithNormal` calls among the events. -/
def insertUndoLogCalls (evs : List Event) : Nat := evs.countP Event.isInsertUndoLog

/-- An error is the lock-conflict error. -/
def isLockConflict (e : GoError) : Bool := errorsIs e BranchLockAcquireFailed

/-- A hint name equals `xid` ignoring letter case: it is one of the eight
spellings of `xid` in upper- and lower-case letters. -/
def NamedXID (s : String) : Prop :=
  s ∈ ["xid", "xiD", "xId", "xID", "Xid", "XiD", "XId", "XID"]

instance NamedXID.decidable (s : String) : Decidable (NamedXID s) := by
  unfold NamedXID
  infer_instance

/-! ## Shapes of a post-handling run -/

/-- The undo item of a statement has the shape of the statement's kind: a
DELETE item holds the stashed before-image and no after-image, an INSERT item
no before-image and the after-image the insert executor returned, an UPDATE
item the stashed before-image and the after-image the update executor
returned for it. Its lock key is built from the before-image for a DELETE and
from the after-image for an INSERT or UPDATE. -/
def UndoItemShape (env : Env) (ctx : Ctx) (result : Result) (conn : BackendConnection)
    (stmt : Stmt) (item : UndoLogItem) : Prop :=
  match stmt.StmtNode with
  | StmtNode.delete _ =>
    item.sqlType = SQLType.SQLType_DELETE ∧ item.afterImage = none ∧
      ∃ bi, Variable ctx beforeImage = some bi ∧ item.beforeImage = some bi ∧
        item.lockKey = env.BuildLockKey (some bi)
  | StmtNode.insert s =>
    item.sqlType = SQLType.SQLType_INSERT ∧ item.beforeImage = none ∧
      ∃ ai, env.insertAfterImage { conn := conn, stmt := s, args := stmt.BindVars } ctx result
          = Except.ok ai ∧ item.afterImage = some ai ∧
        item.lockKey = env.BuildLockKey (some ai)
  | StmtNode.update s =>
    item.sqlType = SQLType.SQLType_UPDATE ∧
      ∃ bi ai, Variable ctx beforeImage = some bi ∧
        env.updateAfterImage { conn := conn, stmt := s, args := stmt.BindVars } ctx bi
          = Except.ok ai ∧
        item.beforeImage = some bi ∧ item.afterImage = some ai ∧
        item.lockKey = env.BuildLockKey (some ai)
  | _ => False

/-- A post-handling run `out` that got as far as the registration: after the
events `pre` (none of them a coordinator or undo-log call) it ran
`registerBranchTransaction` on `lockKeys`; when that returned an error the run
returned it and stopped, otherwise it logged the branch ID, called
`InsertUndoLogWithNormal` with that branch ID and `item`, and returned the
store's result. -/
def RegisteredRun (f : _mysqlFilter) (env : Env) (conn : BackendConnection) (xid : String)
    (out : Option GoError × List Event) (pre : List Event) (lockKeys : String)
    (item : UndoLogItem) : Prop :=
  registerCalls pre = 0 ∧ insertUndoLogCalls pre = 0 ∧ item.lockKey = lockKeys ∧
    ((∃ e, (f.registerBranchTransaction env xid conn.DataSourceName lockKeys).1.2 = some e ∧
        out = (some e, pre ++ (f.registerBranchTransaction env xid conn.DataSourceName lockKeys).2))
      ∨
      ((f.registerBranchTransaction env xid conn.DataSourceName lockKeys).1.2 = none ∧
        ∃ format, out =
          (env.InsertUndoLogWithNormal conn xid
              (f.registerBranchTransaction env xid conn.DataSourceName lockKeys).1.1 item,
            pre ++ (f.registerBranchTransaction env xid conn.DataSourceName lockKeys).2 ++
              [Event.logDebugf format (LogArg.int
                  (f.registerBranchTransaction env xid conn.DataSourceName lockKeys).1.1),
                Event.insertUndoLogWithNormal conn xid
                  (f.registerBranchTransaction env xid conn.DataSourceName lockKeys).1.1 item])))

/-- A post-handling run of a hinted statement: it failed before the
registration without any coordinator or undo-log call, or it is a
`RegisteredRun` on an undo item of the expected shape. -/
def HintedRun (f : _mysqlFilter) (env : Env) (conn : BackendConnection) (xid : String)
    (out : Option GoError × List Event) (shape : UndoLogItem → Prop) : Prop :=
  ((∃ e, out.1 = some e) ∧ registerCalls out.2 = 0 ∧ insertUndoLogCalls out.2 = 0) ∨
    ∃ pre lockKeys item, RegisteredRun f env conn xid out pre lockKeys item ∧ shape item

/-! ## Worked inputs -/

/-- The row `id = 1, v = 10` of table `t`. -/
def rowsBefore : TableRecords := { TableName := "t", Rows := [[("id", "1"), ("v", "10")]] }

/-- The row `id = 1, v = 20` of table `t`. -/
def rowsAfter : TableRecords := { TableName := "t", Rows := [[("id", "1"), ("v", "20")]] }

/-- A coordinator that reports the lock conflict on every call. -/
def alwaysConflict : Nat → BranchRegisterRequest → Int × Option GoError :=
  fun _ _ => (0, some BranchLockAcquireFailed)

/-- A coordinator that reports the lock conflict until call number `k`
(counted from one), which succeeds with branch ID `b`. -/
def succeedsAt (k : Nat) (b : Int) : Nat → BranchRegisterRequest → Int × Option GoError :=
  fun i _ => if i + 1 = k then (b, none) else (0, some BranchLockAcquireFailed)

/-- A coordinator that reports the lock conflict until call number `k`
(counted from one), which fails with the error `e`. -/
def failsAt (k : Nat) (e : GoError) : Nat → BranchRegisterRequest → Int × Option GoError :=
  fun i _ => if i + 1 = k then (0, some e) else (0, some BranchLockAcquireFailed)

/-- Collaborators for worked inputs: executors that read `rowsBefore` and
`rowsAfter`, the lock key `t:1`, the given coordinator and the given result
of the undo-log store. -/
def stubEnv (coordinator : Nat → BranchRegisterRequest → Int × Option GoError)
    (stored : Option GoError) : Env :=
  { ComStmtExecute := 0x17,
    deleteBeforeImage := fun _ _ => Except.ok rowsBefore,
    updateBeforeImage := fun _ _ => Except.ok rowsBefore,
    insertAfterImage := fun _ _ _ => Except.ok rowsAfter,
    updateAfterImage := fun _ _ _ => Except.ok rowsAfter,
    selectForUpdateExecute := fun _ _ _ => none,
    deleteGetTableName := fun _ => "t",
    insertGetTableName := fun _ => "t",
    updateGetTableName := fun _ => "t",
    BuildLockKey := fun _ => "t:1",
    BranchRegisterLocal := coordinator,
    InsertUndoLogWithNormal := fun _ _ _ _ => stored }

/-- A table hint with the given name and data. -/
def tableHint (name data : String) : TableOptimizerHint :=
  { HintName := { O := name, L := name }, HintData := { O := data, L := data } }

/-- A prepared-statement context holding `node`, with the given variables and
the schema `shop`. -/
def preparedCtx (node : StmtNode) (vars : List (String × TableRecords)) : Ctx :=
  { commandType := 0x17, prepareStmt := some { StmtNode := node, BindVars := [("1", "1")] },
    vars := some vars, schema := "shop" }

/-- A context like `preparedCtx` whose command kind is `COM_QUERY` (0x03), not
a prepared-statement execution. -/
def queryCtx (node : StmtNode) (vars : List (String × TableRecords)) : Ctx :=
  { commandType := 0x03, prepareStmt := some { StmtNode := node, BindVars := [("1", "1")] },
    vars := some vars, schema := "shop" }

/-- A filter with the given retry budget and the default 50ms interval. -/
def filterWith (times : Int) : _mysqlFilter :=
  { addressing := "coordinator:8092", lockRetryInterval := 50 * Millisecond,
    lockRetryTimes := times }

/-! ## The hint scan -/

theorem char_eq_of_toNat {c d : Char} (h : c.toNat = d.toNat) : c = d := by
  rw [← Char.ofNat_toNat c, ← Char.ofNat_toNat d, h]

/-- Against a lower-case ASCII letter `l` with upper-case form `u`, the rune
comparison of `strings.EqualFold` accepts exactly `l` and `u`. -/
theorem foldEqRune_lower (c l u : Char) (hl : 97 ≤ l.toNat ∧ l.toNat ≤ 122)
    (hu : u.toNat + 32 = l.toNat) :
    foldEqRune c l = true ↔ c = l ∨ c = u := by
  unfold foldEqRune
  have hA : 'A'.toNat = 65 := rfl
  have hZ : 'Z'.toNat = 90 := rfl
  have ha : 'a'.toNat = 97 := rfl
  constructor
  · intro h
    by_cases hcl : l = c
    · exact Or.inl hcl.symm
    · rw [if_neg hcl] at h
      right
      apply char_eq_of_toNat
      by_cases hlt : c.toNat < l.toNat
      · simp only [hlt, if_true, hA, hZ, ha] at h
        split at h
        · simp at h
          omega
        · exact absurd h (by decide)
      · simp only [hlt, if_false, hA, hZ, ha] at h
        split at h
        · simp at h
          omega
        · exact absurd h (by decide)
  · rintro (h | h)
    · simp [h]
    · subst h
      have hne : ¬ l = c := by
        intro h
        rw [h] at hu
        omega
      have hlt : c.toNat < l.toNat := by omega
      rw [if_neg hne]
      simp only [hlt, if_true, hA, hZ, ha]
      have : l.toNat < 128 := by omega
      simp [this]
      omega

/-- The comparison `strings.EqualFold(name, hintXID)` accepts exactly the eight
spellings of `xid`. -/
theorem equalFold_hintXID (s : String) : equalFold s hintXID = true ↔ NamedXID s := by
  have hx := fun c => foldEqRune_lower c 'x' 'X' (by decide) (by decide)
  have hi := fun c => foldEqRune_lower c 'i' 'I' (by decide) (by decide)
  have hd := fun c => foldEqRune_lower c 'd' 'D' (by decide) (by decide)
  have htarget : hintXID.toList = ['x', 'i', 'd'] := rfl
  unfold equalFold NamedXID
  rw [htarget]
  obtain ⟨l⟩ := s
  simp only [String.toList]
  constructor
  · intro h
    rcases l with _ | ⟨a, _ | ⟨b, _ | ⟨c, _ | ⟨d, t⟩⟩⟩⟩
    · simp [equalFoldRunes] at h
    · simp [equalFoldRunes] at h
    · simp [equalFoldRunes] at h
    · simp only [equalFoldRunes, Bool.and_eq_true, Bool.and_true, hx, hi, hd] at h
      obtain ⟨ha | ha, hb | hb, hc | hc⟩ := h <;> subst ha <;> subst hb <;> subst hc <;> decide
    · simp [equalFoldRunes] at h
  · intro h
    simp only [List.mem_cons, List.mem_singleton, List.not_mem_nil, or_false] at h
    rcases h with h | h | h | h | h | h | h | h <;>
      (have hl := congrArg String.data h
       simp only at hl
       subst hl
       decide)

/-- The flag of `hasXIDHint` says whether some hint is named `xid`. -/
theorem hasXIDHint_fst_iff (hints : List TableOptimizerHint) :
    (hasXIDHint hints).1 = true ↔ ∃ h ∈ hints, NamedXID h.HintName.String := by
  induction hints with
  | nil => simp [hasXIDHint]
  | cons hint hints ih =>
    unfold hasXIDHint
    by_cases hm : equalFold hint.HintName.String hintXID = true
    · simp only [hm, if_true]
      exact ⟨fun _ => ⟨hint, List.mem_cons_self _ _, (equalFold_hintXID _).1 hm⟩, fun _ => trivial⟩
    · have hn : ¬ NamedXID hint.HintName.String := fun h => hm ((equalFold_hintXID _).2 h)
      simp only [hm]
      rw [if_neg (by simp), ih]
      constructor
      · rintro ⟨h, hmem, hh⟩
        exact ⟨h, List.mem_cons_of_mem _ hmem, hh⟩
      · rintro ⟨h, hmem, hh⟩
        rcases List.mem_cons.1 hmem with rfl | hmem
        · exact absurd hh hn
        · exact ⟨h, hmem, hh⟩

/-- Without a hint named `xid` the scan returns `(false, "")`. -/
theorem hasXIDHint_none (hints : List TableOptimizerHint)
    (h : ∀ g ∈ hints, ¬ NamedXID g.HintName.String) : hasXIDHint hints = (false, "") := by
  induction hints with
  | nil => rfl
  | cons hint hints ih =>
    unfold hasXIDHint
    have hm : ¬ equalFold hint.HintName.String hintXID = true :=
      fun hm => h hint (List.mem_cons_self _ _) ((equalFold_hintXID _).1 hm)
    rw [if_neg hm]
    exact ih (fun g hg => h g (List.mem_cons_of_mem _ hg))

/-- The scan returns the data of the first hint named `xid`. -/
theorem hasXIDHint_first (pre : List TableOptimizerHint) (hint : TableOptimizerHint)
    (post : List TableOptimizerHint) (hpre : ∀ g ∈ pre, ¬ NamedXID g.HintName.String)
    (hhint : NamedXID hint.HintName.String) :
    hasXIDHint (pre ++ hint :: post) = (true, hint.HintData.String) := by
  induction pre with
  | nil =>
    simp only [List.nil_append]
    unfold hasXIDHint
    rw [if_pos ((equalFold_hintXID _).2 hhint)]
  | cons g pre ih =>
    simp only [List.cons_append]
    unfold hasXIDHint
    have hm : ¬ equalFold g.HintName.String hintXID = true :=
      fun hm => hpre g (List.mem_cons_self _ _) ((equalFold_hintXID _).1 hm)
    rw [if_neg hm]
    exact ih (fun g hg => hpre g (List.mem_cons_of_mem _ hg))

/-! ## The registration loop -/

theorem registerCalls_nil : registerCalls [] = 0 := rfl

theorem registerCalls_append (a b : List Event) :
    registerCalls (a ++ b) = registerCalls a + registerCalls b := by
  simp [registerCalls, List.countP_append]

theorem sleepCalls_append (a b : List Event) :
    sleepCalls (a ++ b) = sleepCalls a + sleepCalls b := by
  simp [sleepCalls, List.countP_append]

theorem insertUndoLogCalls_append (a b : List Event) :
    insertUndoLogCalls (a ++ b) = insertUndoLogCalls a + insertUndoLogCalls b := by
  simp [insertUndoLogCalls, List.countP_append]

/-- One unfolding of the loop on a lock-conflict response. -/
theorem registerLoop_conflict_step (f : _mysqlFilter) (env : Env) (req : BranchRegisterRequest)
    (m start : Nat) (bid : Int) (err : Option GoError) (e : GoError)
    (hr : (env.BranchRegisterLocal start req).2 = some e) (hc : isLockConflict e = true) :
    f.registerLoop env req (m + 1) start bid err =
      ((f.registerLoop env req m (start + 1) (env.BranchRegisterLocal start req).1 (some e)).1,
        [Event.branchRegisterLocal req,
          Event.logErrorf "branch register err: %v" (LogArg.err e),
          Event.sleep f.lockRetryInterval] ++
        (f.registerLoop env req m (start + 1) (env.BranchRegisterLocal start req).1 (some e)).2) := by
  unfold isLockConflict at hc
  simp only [_mysqlFilter.registerLoop, hr, hc, if_true]

/-- One unfolding of the loop on a successful response. -/
theorem registerLoop_success_step (f : _mysqlFilter) (env : Env) (req : BranchRegisterRequest)
    (m start : Nat) (bid : Int) (err : Option GoError)
    (hr : (env.BranchRegisterLocal start req).2 = none) :
    f.registerLoop env req (m + 1) start bid err =
      (((env.BranchRegisterLocal start req).1, none), [Event.branchRegisterLocal req]) := by
  simp only [_mysqlFilter.registerLoop, hr]

/-- One unfolding of the loop on an error that is not the lock conflict. -/
theorem registerLoop_abort_step (f : _mysqlFilter) (env : Env) (req : BranchRegisterRequest)
    (m start : Nat) (bid : Int) (err : Option GoError) (e : GoError)
    (hr : (env.BranchRegisterLocal start req).2 = some e) (hc : isLockConflict e = false) :
    f.registerLoop env req (m + 1) start bid err =
      (((env.BranchRegisterLocal start req).1, some e),
        [Event.branchRegisterLocal req,
          Event.logErrorf "branch register err: %v" (LogArg.err e)]) := by
  unfold isLockConflict at hc
  simp [_mysqlFilter.registerLoop, hr, hc]

/-- After `j` lock-conflict responses the loop has made `j` calls and `j`
sleeps, and continues with the remaining budget from the last response. -/
theorem registerLoop_conflicts (f : _mysqlFilter) (env : Env) (req : BranchRegisterRequest) :
    ∀ (j m start : Nat) (bid : Int) (err : Option GoError),
      (∀ i, i < j → ∃ e, (env.BranchRegisterLocal (start + i) req).2 = some e ∧
        isLockConflict e = true) →
      ∃ (pre : List Event) (bid1 : Int) (err1 : Option GoError),
        f.registerLoop env req (j + m) start bid err =
          ((f.registerLoop env req m (start + j) bid1 err1).1,
            pre ++ (f.registerLoop env req m (start + j) bid1 err1).2) ∧
        registerCalls pre = j ∧ sleepCalls pre = j ∧ insertUndoLogCalls pre = 0 ∧
        (j = 0 → bid1 = bid ∧ err1 = err) ∧
        (0 < j → (bid1, err1) = env.BranchRegisterLocal (start + j - 1) req) := by
  intro j
  induction j with
  | zero =>
    intro m start bid err _
    exact ⟨[], bid, err, by simp, rfl, rfl, rfl, fun _ => ⟨rfl, rfl⟩, fun h => absurd h (by decide)⟩
  | succ j ih =>
    intro m start bid err h
    obtain ⟨e, hr, hc⟩ := h 0 (Nat.succ_pos j)
    simp only [Nat.add_zero] at hr
    have hrest : ∀ i, i < j → ∃ e, (env.BranchRegisterLocal (start + 1 + i) req).2 = some e ∧
        isLockConflict e = true := by
      intro i hi
      have := h (i + 1) (Nat.succ_lt_succ hi)
      rwa [show start + (i + 1) = start + 1 + i by omega] at this
    obtain ⟨pre, bid1, err1, heq, hcalls, hsleeps, hins, hzero, hpos⟩ :=
      ih m (start + 1) (env.BranchRegisterLocal start req).1 (some e) hrest
    refine ⟨[Event.branchRegisterLocal req,
        Event.logErrorf "branch register err: %v" (LogArg.err e),
        Event.sleep f.lockRetryInterval] ++ pre, bid1, err1, ?_, ?_, ?_, ?_, ?_, ?_⟩
    · rw [show j + 1 + m = (j + m) + 1 by omega,
        registerLoop_conflict_step f env req (j + m) start bid err e hr hc, heq,
        show start + 1 + j = start + (j + 1) by omega]
      simp
    · rw [registerCalls_append, hcalls]
      simp [registerCalls, Event.isRegister]
      omega
    · rw [sleepCalls_append, hsleeps]
      simp [sleepCalls, Event.isSleep]
      omega
    · rw [insertUndoLogCalls_append, hins]
      simp [insertUndoLogCalls, Event.isInsertUndoLog]
    · intro h0
      omega
    · intro _
      rcases Nat.eq_zero_or_pos j with hj | hj
      · subst hj
        obtain ⟨hb, he⟩ := hzero rfl
        rw [hb, he, ← hr, show start + (0 + 1) - 1 = start by omega]
      · rw [hpos hj]
        congr 1
        omega

/-- The loop never calls the undo-log store. -/
theorem registerLoop_no_insert (f : _mysqlFilter) (env : Env) (req : BranchRegisterRequest) :
    ∀ (remaining start : Nat) (bid : Int) (err : Option GoError),
      insertUndoLogCalls (f.registerLoop env req remaining start bid err).2 = 0 := by
  intro remaining
  induction remaining with
  | zero => intro start bid err; rfl
  | succ m ih =>
    intro start bid err
    cases hr : (env.BranchRegisterLocal start req).2 with
    | none =>
      rw [registerLoop_success_step f env req m start bid err hr]
      rfl
    | some e =>
      cases hc : isLockConflict e with
      | true =>
        rw [registerLoop_conflict_step f env req m start bid err e hr hc]
        simp only [insertUndoLogCalls_append, ih]
        rfl
      | false =>
        rw [registerLoop_abort_step f env req m start bid err e hr hc]
        rfl

/-- When the loop returns a nil error it either never ran, or its last event
is a successful `BranchRegisterLocal` call whose branch ID it returns. -/
theorem registerLoop_nil_error (f : _mysqlFilter) (env : Env) (req : BranchRegisterRequest) :
    ∀ (remaining start : Nat) (bid : Int) (err : Option GoError),
      (f.registerLoop env req remaining start bid err).1.2 = none →
      (remaining = 0 ∧ err = none) ∨
      ∃ pre, (f.registerLoop env req remaining start bid err).2 =
          pre ++ [Event.branchRegisterLocal req] ∧
        env.BranchRegisterLocal (start + registerCalls pre) req =
          ((f.registerLoop env req remaining start bid err).1.1, none) ∧
        insertUndoLogCalls pre = 0 := by
  intro remaining
  induction remaining with
  | zero =>
    intro start bid err h
    exact Or.inl ⟨rfl, h⟩
  | succ m ih =>
    intro start bid err h
    right
    cases hr : (env.BranchRegisterLocal start req).2 with
    | none =>
      rw [registerLoop_success_step f env req m start bid err hr]
      exact ⟨[], rfl, by simp [registerCalls, ← hr], rfl⟩
    | some e =>
      cases hc : isLockConflict e with
      | true =>
        rw [registerLoop_conflict_step f env req m start bid err e hr hc] at h ⊢
        rcases ih (start + 1) (env.BranchRegisterLocal start req).1 (some e) h with
          ⟨_, hne⟩ | ⟨pre, hev, hresp, hins⟩
        · exact absurd hne (by simp)
        · refine ⟨[Event.branchRegisterLocal req,
            Event.logErrorf "branch register err: %v" (LogArg.err e),
            Event.sleep f.lockRetryInterval] ++ pre, ?_, ?_, ?_⟩
          · simp only [hev, List.append_assoc]
          · rw [← hresp, registerCalls_append]
            simp only [registerCalls, List.countP_cons, List.countP_nil, Event.isRegister]
            congr 1
            simp
            omega
          · rw [insertUndoLogCalls_append, hins]
            rfl
      | false =>
        rw [registerLoop_abort_step f env req m start bid err e hr hc] at h
        exact absurd h (by simp)

/-- A registration never calls the undo-log store. -/
theorem registerBranchTransaction_no_insert (f : _mysqlFilter) (env : Env)
    (xid resourceID lockKey : String) :
    insertUndoLogCalls (f.registerBranchTransaction env xid resourceID lockKey).2 = 0 :=
  registerLoop_no_insert f env _ _ _ _ _

/-- With a budget of at least one, a registration that returns a nil error
ended on a successful `BranchRegisterLocal` call and returns its branch ID. -/
theorem registerBranchTransaction_nil_error (f : _mysqlFilter) (env : Env)
    (xid resourceID lockKey : String) (hN : 1 ≤ f.lockRetryTimes)
    (h : (f.registerBranchTransaction env xid resourceID lockKey).1.2 = none) :
    ∃ pre, (f.registerBranchTransaction env xid resourceID lockKey).2 =
        pre ++ [Event.branchRegisterLocal (f.branchRegisterRequest xid resourceID lockKey)] ∧
      env.BranchRegisterLocal (registerCalls pre)
          (f.branchRegisterRequest xid resourceID lockKey) =
        ((f.registerBranchTransaction env xid resourceID lockKey).1.1, none) ∧
      insertUndoLogCalls pre = 0 := by
  rcases registerLoop_nil_error f env _ _ 0 0 none h with ⟨h0, _⟩ | ⟨pre, hev, hresp, hins⟩
  · omega
  · exact ⟨pre, hev, by simpa using hresp, hins⟩

/-- C1 (amended): for every lock_retry_times = N with N >= 1 and a coordinator
whose BranchRegisterLocal always fails with the lock-conflict error,
registerBranchTransaction calls BranchRegisterLocal exactly N times and
returns the conflict error of the last (the N-th) attempt. -/
theorem registerBranchTransaction_always_conflict (f : _mysqlFilter) (env : Env)
    (xid resourceID lockKey : String) (hN : 1 ≤ f.lockRetryTimes)
    (hstub : ∀ i req, ∃ e, (env.BranchRegisterLocal i req).2 = some e ∧
      isLockConflict e = true) :
    ((registerCalls (f.registerBranchTransaction env xid resourceID lockKey).2 : Nat) : Int)
        = f.lockRetryTimes ∧
      (f.registerBranchTransaction env xid resourceID lockKey).1.2 =
        (env.BranchRegisterLocal (f.lockRetryTimes.toNat - 1)
          (f.branchRegisterRequest xid resourceID lockKey)).2 ∧
      ∃ e, (f.registerBranchTransaction env xid resourceID lockKey).1.2 = some e ∧
        isLockConflict e = true := by
  obtain ⟨pre, bid1, err1, heq, hcalls, _, _, _, hpos⟩ :=
    registerLoop_conflicts f env (f.branchRegisterRequest xid resourceID lockKey)
      f.lockRetryTimes.toNat 0 0 0 none (fun i _ => by simpa using hstub i _)
  have hj : 0 < f.lockRetryTimes.toNat := by omega
  have hlast := hpos hj
  simp only [Nat.add_zero, Nat.zero_add] at heq hlast
  have hout : f.registerBranchTransaction env xid resourceID lockKey = ((bid1, err1), pre) := by
    unfold _mysqlFilter.registerBranchTransaction
    rw [heq]
    simp [_mysqlFilter.registerLoop]
  have herr : err1 = (env.BranchRegisterLocal (f.lockRetryTimes.toNat - 1)
      (f.branchRegisterRequest xid resourceID lockKey)).2 := by
    rw [← hlast]
  rw [hout]
  refine ⟨?_, herr, ?_⟩
  · simp only [hcalls]
    omega
  · obtain ⟨e, he, hc⟩ := hstub (f.lockRetryTimes.toNat - 1)
      (f.branchRegisterRequest xid resourceID lockKey)
    exact ⟨e, by simp only [herr, he], hc⟩

/-- C1 (amended), at N = 3 with a coordinator that always reports the lock
conflict. -/
theorem registerBranchTransaction_always_conflict_witness :
    ((registerCalls ((filterWith 3).registerBranchTransaction (stubEnv alwaysConflict none)
        "gtx-1" "ds0" "t:1").2 : Nat) : Int) = 3 ∧
      ((filterWith 3).registerBranchTransaction (stubEnv alwaysConflict none)
        "gtx-1" "ds0" "t:1").1.2 = some BranchLockAcquireFailed :=
  have h := registerBranchTransaction_always_conflict (filterWith 3) (stubEnv alwaysConflict none)
    "gtx-1" "ds0" "t:1" (by decide)
    (fun _ _ => ⟨BranchLockAcquireFailed, rfl, by decide⟩)
  ⟨h.1, h.2.1⟩

/-- C1 as stated fails at N = 0: against a coordinator that always reports the
lock conflict, registerBranchTransaction makes no call and returns branch ID 0
with a nil error, not a conflict error. -/
theorem registerBranchTransaction_zero_budget_returns_nil :
    (∀ i req, (alwaysConflict i req).2 = some BranchLockAcquireFailed) ∧
      isLockConflict BranchLockAcquireFailed = true ∧
      (filterWith 0).registerBranchTransaction (stubEnv alwaysConflict none) "gtx-1" "ds0" "t:1"
        = ((0, none), []) :=
  ⟨fun _ _ => rfl, by decide, rfl⟩

/-- C2: for N = lock_retry_times and 1 <= K <= N, if BranchRegisterLocal fails
with the lock-conflict error on attempts 1..K-1 and succeeds on attempt K with
branch ID b, then registerBranchTransaction makes exactly K calls to
BranchRegisterLocal (sleeping K-1 times) and returns (b, nil). -/
theorem registerBranchTransaction_succeeds_on_attempt (f : _mysqlFilter) (env : Env)
    (xid resourceID lockKey : String) (K : Nat) (b : Int)
    (hK : 1 ≤ K) (hKN : (K : Int) ≤ f.lockRetryTimes)
    (hconf : ∀ i, i + 1 < K → ∃ e,
      (env.BranchRegisterLocal i (f.branchRegisterRequest xid resourceID lockKey)).2 = some e ∧
        isLockConflict e = true)
    (hsucc : env.BranchRegisterLocal (K - 1) (f.branchRegisterRequest xid resourceID lockKey)
      = (b, none)) :
    registerCalls (f.registerBranchTransaction env xid resourceID lockKey).2 = K ∧
      sleepCalls (f.registerBranchTransaction env xid resourceID lockKey).2 = K - 1 ∧
      (f.registerBranchTransaction env xid resourceID lockKey).1 = (b, none) := by
  obtain ⟨m, hm⟩ : ∃ m, f.lockRetryTimes.toNat = (K - 1) + (m + 1) :=
    ⟨f.lockRetryTimes.toNat - K, by omega⟩
  obtain ⟨pre, bid1, err1, heq, hcalls, hsleeps, _, _, _⟩ :=
    registerLoop_conflicts f env (f.branchRegisterRequest xid resourceID lockKey)
      (K - 1) (m + 1) 0 0 none
      (fun i hi => by simpa using hconf i (by omega))
  have hr : (env.BranchRegisterLocal (0 + (K - 1))
      (f.branchRegisterRequest xid resourceID lockKey)).2 = none := by
    rw [Nat.zero_add, hsucc]
  have hout : f.registerBranchTransaction env xid resourceID lockKey =
      ((b, none), pre ++ [Event.branchRegisterLocal
        (f.branchRegisterRequest xid resourceID lockKey)]) := by
    unfold _mysqlFilter.registerBranchTransaction
    rw [hm, heq, registerLoop_success_step f env _ m (0 + (K - 1)) bid1 err1 hr,
      Nat.zero_add, hsucc]
  rw [hout]
  refine ⟨?_, ?_, rfl⟩
  · simp only [registerCalls_append, hcalls]
    simp [registerCalls, Event.isRegister]
    omega
  · simp only [sleepCalls_append, hsleeps]
    simp [sleepCalls, Event.isSleep]

/-- C2 at N = 5, K = 3, b = 42: two conflicts, then success. -/
theorem registerBranchTransaction_succeeds_on_attempt_witness :
    registerCalls ((filterWith 5).registerBranchTransaction (stubEnv (succeedsAt 3 42) none)
        "gtx-1" "ds0" "t:1").2 = 3 ∧
      sleepCalls ((filterWith 5).registerBranchTransaction (stubEnv (succeedsAt 3 42) none)
        "gtx-1" "ds0" "t:1").2 = 2 ∧
      ((filterWith 5).registerBranchTransaction (stubEnv (succeedsAt 3 42) none)
        "gtx-1" "ds0" "t:1").1 = (42, none) :=
  registerBranchTransaction_succeeds_on_attempt (filterWith 5) (stubEnv (succeedsAt 3 42) none)
    "gtx-1" "ds0" "t:1" 3 42 (by decide) (by decide)
    (fun i hi => ⟨BranchLockAcquireFailed, by
      have hne : ¬ (i + 1 = 3) := by omega
      simp [stubEnv, succeedsAt, hne], by decide⟩)
    rfl

/-- C3: for lock_retry_times N >= 1 and 1 <= j <= N, if BranchRegisterLocal
fails with the lock-conflict error on attempts 1..j-1 and with an error that is
not the lock-conflict error on attempt j, then registerBranchTransaction makes
exactly j calls, the j-th call is followed only by the error log line (no
sleep, j-1 sleeps in all), and that error is returned. -/
theorem registerBranchTransaction_aborts_on_other_error (f : _mysqlFilter) (env : Env)
    (xid resourceID lockKey : String) (j : Nat) (bid : Int) (e : GoError)
    (hj : 1 ≤ j) (hjN : (j : Int) ≤ f.lockRetryTimes)
    (hconf : ∀ i, i + 1 < j → ∃ e1,
      (env.BranchRegisterLocal i (f.branchRegisterRequest xid resourceID lockKey)).2 = some e1 ∧
        isLockConflict e1 = true)
    (hfail : env.BranchRegisterLocal (j - 1) (f.branchRegisterRequest xid resourceID lockKey)
      = (bid, some e))
    (hother : isLockConflict e = false) :
    registerCalls (f.registerBranchTransaction env xid resourceID lockKey).2 = j ∧
      sleepCalls (f.registerBranchTransaction env xid resourceID lockKey).2 = j - 1 ∧
      (∃ pre, (f.registerBranchTransaction env xid resourceID lockKey).2 =
          pre ++ [Event.branchRegisterLocal (f.branchRegisterRequest xid resourceID lockKey),
            Event.logErrorf "branch register err: %v" (LogArg.err e)] ∧
          registerCalls pre = j - 1) ∧
      (f.registerBranchTransaction env xid resourceID lockKey).1.2 = some e := by
  obtain ⟨m, hm⟩ : ∃ m, f.lockRetryTimes.toNat = (j - 1) + (m + 1) :=
    ⟨f.lockRetryTimes.toNat - j, by omega⟩
  obtain ⟨pre, bid1, err1, heq, hcalls, hsleeps, _, _, _⟩ :=
    registerLoop_conflicts f env (f.branchRegisterRequest xid resourceID lockKey)
      (j - 1) (m + 1) 0 0 none
      (fun i hi => by simpa using hconf i (by omega))
  have hr : (env.BranchRegisterLocal (0 + (j - 1))
      (f.branchRegisterRequest xid resourceID lockKey)).2 = some e := by
    rw [Nat.zero_add, hfail]
  have hout : f.registerBranchTransaction env xid resourceID lockKey =
      ((bid, some e), pre ++ [Event.branchRegisterLocal
        (f.branchRegisterRequest xid resourceID lockKey),
        Event.logErrorf "branch register err: %v" (LogArg.err e)]) := by
    unfold _mysqlFilter.registerBranchTransaction
    rw [hm, heq, registerLoop_abort_step f env _ m (0 + (j - 1)) bid1 err1 e hr hother,
      Nat.zero_add, hfail]
  rw [hout]
  refine ⟨?_, ?_, ⟨pre, rfl, hcalls⟩, rfl⟩
  · simp only [registerCalls_append, hcalls]
    simp [registerCalls, Event.isRegister]
    omega
  · simp only [sleepCalls_append, hsleeps]
    simp [sleepCalls, Event.isSleep]

/-- C3 at N = 5, j = 1: a non-conflict error on the first attempt yields exactly
one attempt and no sleep. -/
theorem registerBranchTransaction_aborts_on_other_error_witness :
    registerCalls ((filterWith 5).registerBranchTransaction
        (stubEnv (failsAt 1 (GoError.leaf "coordinator unreachable")) none)
        "gtx-1" "ds0" "t:1").2 = 1 ∧
      sleepCalls ((filterWith 5).registerBranchTransaction
        (stubEnv (failsAt 1 (GoError.leaf "coordinator unreachable")) none)
        "gtx-1" "ds0" "t:1").2 = 0 ∧
      ((filterWith 5).registerBranchTransaction
        (stubEnv (failsAt 1 (GoError.leaf "coordinator unreachable")) none)
        "gtx-1" "ds0" "t:1").1.2 = some (GoError.leaf "coordinator unreachable") :=
  have h := registerBranchTransaction_aborts_on_other_error (filterWith 5)
    (stubEnv (failsAt 1 (GoError.leaf "coordinator unreachable")) none)
    "gtx-1" "ds0" "t:1" 1 0 (GoError.leaf "coordinator unreachable") (by decide) (by decide)
    (fun i hi => absurd hi (by omega)) rfl (by decide)
  ⟨h.1, h.2.1, h.2.2.2⟩

/-- C10: NewFilter stores the decoded lock_retry_times unchanged (zero when the
configuration omits it), and for every filter whose lock_retry_times is zero or
negative registerBranchTransaction makes no call to BranchRegisterLocal, does
not sleep, and returns branch ID 0 with a nil error, for every xid, resource
ID and lock key. -/
theorem registerBranchTransaction_no_budget :
    (∀ (Config : Type) (decode : Config → Except GoError FilterConfig)
        (parseDuration : String → Option Int) (config : Config) (v : FilterConfig),
        decode config = Except.ok v →
        ∃ f, NewFilter decode parseDuration config = Except.ok f ∧
          f.lockRetryTimes = v.LockRetryTimes) ∧
      (∀ (f : _mysqlFilter) (env : Env) (xid resourceID lockKey : String),
        f.lockRetryTimes ≤ 0 →
        f.registerBranchTransaction env xid resourceID lockKey = ((0, none), []) ∧
          registerCalls (f.registerBranchTransaction env xid resourceID lockKey).2 = 0 ∧
          sleepCalls (f.registerBranchTransaction env xid resourceID lockKey).2 = 0) := by
  constructor
  · intro Config decode parseDuration config v hv
    simp [NewFilter, hv]
  · intro f env xid resourceID lockKey h
    have h0 : f.lockRetryTimes.toNat = 0 := by omega
    have hout : f.registerBranchTransaction env xid resourceID lockKey = ((0, none), []) := by
      unfold _mysqlFilter.registerBranchTransaction
      rw [h0]
      rfl
    rw [hout]
    exact ⟨rfl, rfl, rfl⟩

/-- C10 on the filter NewFilter builds from a configuration that omits
lock_retry_times, and on a negative budget. -/
theorem registerBranchTransaction_no_budget_witness :
    (∃ f, NewFilter (fun _ : Unit => Except.ok
          { Addressing := "coordinator:8092", LockRetryIntervalStr := "", LockRetryTimes := 0 })
        (fun _ => none) () = Except.ok f ∧ f.lockRetryTimes = 0) ∧
      (filterWith (-2)).registerBranchTransaction (stubEnv (succeedsAt 1 7) none)
        "gtx-1" "ds0" "t:1" = ((0, none), []) :=
  ⟨registerBranchTransaction_no_budget.1 Unit
      (fun _ => Except.ok
        { Addressing := "coordinator:8092", LockRetryIntervalStr := "", LockRetryTimes := 0 })
      (fun _ => none) ()
      { Addressing := "coordinator:8092", LockRetryIntervalStr := "", LockRetryTimes := 0 } rfl,
    (registerBranchTransaction_no_budget.2 (filterWith (-2)) (stubEnv (succeedsAt 1 7) none)
      "gtx-1" "ds0" "t:1" (by decide)).1⟩

/-! ## The hooks -/

/-- C4: for every list of table hints, hasXIDHint returns (true, d) for some d
if and only if some hint's name equals xid ignoring letter case; d is then the
data string of the first such hint in list order; and if no hint's name
matches it returns (false, ""). -/
theorem hasXIDHint_spec (hints : List TableOptimizerHint) :
    ((∃ d, hasXIDHint hints = (true, d)) ↔ ∃ h ∈ hints, NamedXID h.HintName.String) ∧
      (∀ pre hint post, hints = pre ++ hint :: post →
        (∀ g ∈ pre, ¬ NamedXID g.HintName.String) → NamedXID hint.HintName.String →
        hasXIDHint hints = (true, hint.HintData.String)) ∧
      ((∀ g ∈ hints, ¬ NamedXID g.HintName.String) → hasXIDHint hints = (false, "")) := by
  refine ⟨⟨?_, ?_⟩, ?_, hasXIDHint_none hints⟩
  · rintro ⟨d, hd⟩
    exact (hasXIDHint_fst_iff hints).1 (by rw [hd])
  · intro h
    exact ⟨(hasXIDHint hints).2, Prod.ext ((hasXIDHint_fst_iff hints).2 h) rfl⟩
  · intro pre hint post heq hpre hhint
    rw [heq]
    exact hasXIDHint_first pre hint post hpre hhint

/-- C4 on a list whose second and third hints are both named xid: the data of
the second is returned. -/
theorem hasXIDHint_spec_witness :
    hasXIDHint [tableHint "max_execution_time" "1000", tableHint "XiD" "gtx-1",
      tableHint "xid" "gtx-2"] = (true, "gtx-1") :=
  (hasXIDHint_spec [tableHint "max_execution_time" "1000", tableHint "XiD" "gtx-1",
      tableHint "xid" "gtx-2"]).2.1 [tableHint "max_execution_time" "1000"]
    (tableHint "XiD" "gtx-1") [tableHint "xid" "gtx-2"] rfl
    (by decide) (by decide)

/-- Without a hint named `xid` PostHandle returns nil and emits nothing. -/
theorem PostHandle_unhinted (f : _mysqlFilter) (env : Env) (ctx : Ctx)
    (conn : BackendConnection) (result : Result) (stmt : Stmt)
    (hstmt : PrepareStmt ctx = some stmt)
    (hno : ∀ h ∈ stmt.StmtNode.hints, ¬ NamedXID h.HintName.String) :
    f.PostHandle env ctx result conn = (none, []) := by
  have hx := hasXIDHint_none _ hno
  unfold _mysqlFilter.PostHandle
  simp only [hstmt]
  by_cases hcmd : CommandType ctx = env.ComStmtExecute
  · simp only [hcmd, if_true]
    cases hnode : stmt.StmtNode with
    | delete s =>
      rw [hnode] at hx
      simp [_mysqlFilter.processAfterDelete, StmtNode.hints] at hx ⊢
      simp [hx]
    | insert s =>
      rw [hnode] at hx
      simp [_mysqlFilter.processAfterInsert, StmtNode.hints] at hx ⊢
      simp [hx]
    | update s =>
      rw [hnode] at hx
      simp [_mysqlFilter.processAfterUpdate, StmtNode.hints] at hx ⊢
      simp [hx]
    | select s =>
      rw [hnode] at hx
      simp only [StmtNode.hints] at hx
      cases hl : s.LockInfo with
      | none => simp only [hl]
      | some info =>
        simp only [hl]
        split
        · simp [_mysqlFilter.processSelectForUpdate, hx]
        · rfl
    | other hs => rfl
  · simp only [hcmd, if_false]

/-- C5: for every statement (DELETE, UPDATE, INSERT, SELECT with or without FOR
UPDATE, or any other kind) whose hint list contains no hint named xid, PreHandle
and PostHandle both return a nil error and emit no event at all (no context
variable set, no image query, no BranchRegisterLocal, no
InsertUndoLogWithNormal), and PreHandle leaves the context as it was. -/
theorem hooks_bypass_without_xid_hint (f : _mysqlFilter) (env : Env) (ctx : Ctx)
    (conn : BackendConnection) (result : Result) (stmt : Stmt)
    (hstmt : PrepareStmt ctx = some stmt)
    (hno : ∀ h ∈ stmt.StmtNode.hints, ¬ NamedXID h.HintName.String) :
    f.PreHandle env ctx conn = (none, ctx, []) ∧
      f.PostHandle env ctx result conn = (none, []) := by
  refine ⟨?_, PostHandle_unhinted f env ctx conn result stmt hstmt hno⟩
  have hx := hasXIDHint_none _ hno
  unfold _mysqlFilter.PreHandle
  simp only [hstmt]
  by_cases hcmd : CommandType ctx = env.ComStmtExecute
  · simp only [hcmd, if_true]
    cases hnode : stmt.StmtNode with
    | delete s =>
      rw [hnode] at hx
      simp [processBeforeDelete, StmtNode.hints] at hx ⊢
      simp [hx]
    | update s =>
      rw [hnode] at hx
      simp [processBeforeUpdate, StmtNode.hints] at hx ⊢
      simp [hx]
    | insert s => rfl
    | select s => rfl
    | other hs => rfl
  · simp only [hcmd, if_false]

/-- C5 on an unhinted prepared UPDATE that carries another hint. -/
theorem hooks_bypass_without_xid_hint_witness :
    (filterWith 3).PreHandle (stubEnv alwaysConflict none)
        (preparedCtx (StmtNode.update { TableHints := [tableHint "max_execution_time" "1000"] })
          [])
        { DataSourceName := "ds0" } =
      (none, preparedCtx (StmtNode.update
        { TableHints := [tableHint "max_execution_time" "1000"] }) [], []) ∧
    (filterWith 3).PostHandle (stubEnv alwaysConflict none)
        (preparedCtx (StmtNode.update { TableHints := [tableHint "max_execution_time" "1000"] })
          [])
        { LastInsertId := 0, AffectedRows := 1 } { DataSourceName := "ds0" } = (none, []) :=
  hooks_bypass_without_xid_hint (filterWith 3) (stubEnv alwaysConflict none)
    (preparedCtx (StmtNode.update { TableHints := [tableHint "max_execution_time" "1000"] }) [])
    { DataSourceName := "ds0" } { LastInsertId := 0, AffectedRows := 1 }
    { StmtNode := StmtNode.update { TableHints := [tableHint "max_execution_time" "1000"] },
      BindVars := [("1", "1")] }
    rfl (by decide)

/-- An event list without undo-log calls holds no `insertUndoLogWithNormal`
event. -/
theorem not_mem_of_insertUndoLogCalls_zero (evs : List Event) (h : insertUndoLogCalls evs = 0)
    (c : BackendConnection) (x : String) (b : Int) (item : UndoLogItem) :
    Event.insertUndoLogWithNormal c x b item ∉ evs := by
  intro hmem
  unfold insertUndoLogCalls at h
  rw [List.countP_eq_zero] at h
  exact absurd rfl (h _ hmem)

/-- The post-handling of a hinted DELETE is a `HintedRun`. -/
theorem processAfterDelete_run (f : _mysqlFilter) (env : Env) (ctx : Ctx)
    (conn : BackendConnection) (result : Result) (stmt : Stmt) (s : DeleteStmt)
    (hnode : stmt.StmtNode = StmtNode.delete s) (hhint : (hasXIDHint s.TableHints).1 = true) :
    HintedRun f env conn (hasXIDHint s.TableHints).2
      (f.processAfterDelete env ctx conn result stmt s)
      (UndoItemShape env ctx result conn stmt) := by
  unfold _mysqlFilter.processAfterDelete HintedRun
  simp only [hhint, Bool.true_eq_false, if_false]
  cases hbi : Variable ctx beforeImage with
  | none => exact Or.inl ⟨⟨_, rfl⟩, rfl, rfl⟩
  | some bi =>
    simp only
    by_cases hschema : Schema ctx = ""
    · rw [if_pos hschema]
      exact Or.inl ⟨⟨_, rfl⟩, rfl, rfl⟩
    · rw [if_neg hschema]
      right
      refine ⟨[Event.logDebugf "delete, lockKey: %s" (LogArg.str (env.BuildLockKey (some bi)))],
        env.BuildLockKey (some bi),
        buildUndoItem SQLType.SQLType_DELETE (Schema ctx)
          (env.deleteGetTableName { conn := conn, stmt := s, args := stmt.BindVars })
          (env.BuildLockKey (some bi)) (some bi) none, ⟨rfl, rfl, rfl, ?_⟩, ?_⟩
      · cases hreg : (f.registerBranchTransaction env (hasXIDHint s.TableHints).2
            conn.DataSourceName (env.BuildLockKey (some bi))).1.2 with
        | some e => exact Or.inl ⟨e, rfl, rfl⟩
        | none => exact Or.inr ⟨rfl, _, rfl⟩
      · unfold UndoItemShape
        rw [hnode]
        exact ⟨rfl, rfl, bi, hbi, rfl, rfl⟩

/-- The post-handling of a hinted INSERT is a `HintedRun`. -/
theorem processAfterInsert_run (f : _mysqlFilter) (env : Env) (ctx : Ctx)
    (conn : BackendConnection) (result : Result) (stmt : Stmt) (s : InsertStmt)
    (hnode : stmt.StmtNode = StmtNode.insert s) (hhint : (hasXIDHint s.TableHints).1 = true) :
    HintedRun f env conn (hasXIDHint s.TableHints).2
      (f.processAfterInsert env ctx conn result stmt s)
      (UndoItemShape env ctx result conn stmt) := by
  unfold _mysqlFilter.processAfterInsert HintedRun
  simp only [hhint, Bool.true_eq_false, if_false]
  cases hai : env.insertAfterImage { conn := conn, stmt := s, args := stmt.BindVars } ctx
      result with
  | error e => exact Or.inl ⟨⟨_, rfl⟩, rfl, rfl⟩
  | ok ai =>
    simp only
    by_cases hschema : Schema ctx = ""
    · rw [if_pos hschema]
      exact Or.inl ⟨⟨_, rfl⟩, rfl, rfl⟩
    · rw [if_neg hschema]
      right
      refine ⟨[Event.afterImageQuery SQLType.SQLType_INSERT,
          Event.logDebugf "insert, lockKey: %s" (LogArg.str (env.BuildLockKey (some ai)))],
        env.BuildLockKey (some ai),
        buildUndoItem SQLType.SQLType_INSERT (Schema ctx)
          (env.insertGetTableName { conn := conn, stmt := s, args := stmt.BindVars })
          (env.BuildLockKey (some ai)) none (some ai), ⟨rfl, rfl, rfl, ?_⟩, ?_⟩
      · cases hreg : (f.registerBranchTransaction env (hasXIDHint s.TableHints).2
            conn.DataSourceName (env.BuildLockKey (some ai))).1.2 with
        | some e => exact Or.inl ⟨e, rfl, rfl⟩
        | none => exact Or.inr ⟨rfl, _, rfl⟩
      · unfold UndoItemShape
        rw [hnode]
        exact ⟨rfl, rfl, ai, hai, rfl, rfl⟩

/-- The post-handling of a hinted UPDATE is a `HintedRun`. -/
theorem processAfterUpdate_run (f : _mysqlFilter) (env : Env) (ctx : Ctx)
    (conn : BackendConnection) (result : Result) (stmt : Stmt) (s : UpdateStmt)
    (hnode : stmt.StmtNode = StmtNode.update s) (hhint : (hasXIDHint s.TableHints).1 = true) :
    HintedRun f env conn (hasXIDHint s.TableHints).2
      (f.processAfterUpdate env ctx conn result stmt s)
      (UndoItemShape env ctx result conn stmt) := by
  unfold _mysqlFilter.processAfterUpdate HintedRun
  simp only [hhint, Bool.true_eq_false, if_false]
  cases hbi : Variable ctx beforeImage with
  | none => exact Or.inl ⟨⟨_, rfl⟩, rfl, rfl⟩
  | some bi =>
    simp only
    cases hai : env.updateAfterImage { conn := conn, stmt := s, args := stmt.BindVars } ctx
        bi with
    | error e => exact Or.inl ⟨⟨_, rfl⟩, rfl, rfl⟩
    | ok ai =>
      simp only
      by_cases hschema : Schema ctx = ""
      · rw [if_pos hschema]
        exact Or.inl ⟨⟨_, rfl⟩, rfl, rfl⟩
      · rw [if_neg hschema]
        right
        refine ⟨[Event.afterImageQuery SQLType.SQLType_UPDATE,
            Event.logDebugf "update, lockKey: %s" (LogArg.str (env.BuildLockKey (some ai)))],
          env.BuildLockKey (some ai),
          buildUndoItem SQLType.SQLType_UPDATE (Schema ctx)
            (env.updateGetTableName { conn := conn, stmt := s, args := stmt.BindVars })
            (env.BuildLockKey (some ai)) (some bi) (some ai), ⟨rfl, rfl, rfl, ?_⟩, ?_⟩
        · cases hreg : (f.registerBranchTransaction env (hasXIDHint s.TableHints).2
              conn.DataSourceName (env.BuildLockKey (some ai))).1.2 with
          | some e => exact Or.inl ⟨e, rfl, rfl⟩
          | none => exact Or.inr ⟨rfl, _, rfl⟩
        · unfold UndoItemShape
          rw [hnode]
          exact ⟨rfl, bi, ai, hbi, hai, rfl, rfl, rfl⟩

/-- The post-handling of a hinted DELETE, INSERT or UPDATE executed as a
prepared statement is a `HintedRun`. -/
theorem PostHandle_run (f : _mysqlFilter) (env : Env) (ctx : Ctx) (result : Result)
    (conn : BackendConnection) (stmt : Stmt)
    (hcmd : CommandType ctx = env.ComStmtExecute) (hstmt : PrepareStmt ctx = some stmt)
    (hdml : stmt.StmtNode.isDML = true)
    (hhint : ∃ h ∈ stmt.StmtNode.hints, NamedXID h.HintName.String) :
    HintedRun f env conn (hasXIDHint stmt.StmtNode.hints).2 (f.PostHandle env ctx result conn)
      (UndoItemShape env ctx result conn stmt) := by
  have hx := (hasXIDHint_fst_iff _).2 hhint
  unfold _mysqlFilter.PostHandle
  simp only [hcmd, if_true, hstmt]
  cases hnode : stmt.StmtNode with
  | delete s =>
    rw [hnode] at hx
    exact processAfterDelete_run f env ctx conn result stmt s hnode hx
  | insert s =>
    rw [hnode] at hx
    exact processAfterInsert_run f env ctx conn result stmt s hnode hx
  | update s =>
    rw [hnode] at hx
    exact processAfterUpdate_run f env ctx conn result stmt s hnode hx
  | select s => rw [hnode] at hdml; exact absurd hdml (by simp [StmtNode.isDML])
  | other hs => rw [hnode] at hdml; exact absurd hdml (by simp [StmtNode.isDML])

/-- In a `RegisteredRun` the only undo-log call is the one after a successful
registration. -/
theorem RegisteredRun.insert_event {f : _mysqlFilter} {env : Env} {conn : BackendConnection}
    {xid : String} {out : Option GoError × List Event} {pre : List Event} {lockKeys : String}
    {item : UndoLogItem} (h : RegisteredRun f env conn xid out pre lockKeys item)
    (c : BackendConnection) (x : String) (b : Int) (item1 : UndoLogItem)
    (hev : Event.insertUndoLogWithNormal c x b item1 ∈ out.2) : item1 = item := by
  obtain ⟨_, hpre, _, hrun⟩ := h
  have hn1 := not_mem_of_insertUndoLogCalls_zero pre hpre c x b item1
  have hn2 := not_mem_of_insertUndoLogCalls_zero _
    (registerBranchTransaction_no_insert f env xid conn.DataSourceName lockKeys) c x b item1
  rcases hrun with ⟨e, _, hout⟩ | ⟨_, format, hout⟩
  · rw [hout] at hev
    simp only [List.mem_append] at hev
    rcases hev with hev | hev
    · exact absurd hev hn1
    · exact absurd hev hn2
  · rw [hout] at hev
    simp only [List.mem_append, List.mem_cons, List.mem_singleton, List.not_mem_nil,
      or_false] at hev
    rcases hev with (hev | hev) | hev | hev
    · exact absurd hev hn1
    · exact absurd hev hn2
    · exact absurd hev (by simp)
    · injection hev

/-- The undo-log calls of a select or other statement: none. -/
theorem PostHandle_not_dml_no_insert (f : _mysqlFilter) (env : Env) (ctx : Ctx)
    (result : Result) (conn : BackendConnection) (stmt : Stmt)
    (hstmt : PrepareStmt ctx = some stmt) (hdml : ¬ stmt.StmtNode.isDML = true) :
    insertUndoLogCalls (f.PostHandle env ctx result conn).2 = 0 := by
  unfold _mysqlFilter.PostHandle
  simp only [hstmt]
  split
  · cases hnode : stmt.StmtNode with
    | delete s => rw [hnode] at hdml; exact absurd rfl hdml
    | insert s => rw [hnode] at hdml; exact absurd rfl hdml
    | update s => rw [hnode] at hdml; exact absurd rfl hdml
    | select s =>
      simp only
      cases hl : s.LockInfo with
      | none => rfl
      | some info =>
        simp only
        split
        · unfold _mysqlFilter.processSelectForUpdate
          simp only
          split <;> rfl
        · rfl
    | other hs => rfl
  · rfl

/-- C6: every undo item that PostHandle hands to InsertUndoLogWithNormal has
the shape of its statement kind: for a DELETE the item has operation DELETE,
the stashed before-image (non-null) and a null after-image; for an INSERT it
has operation INSERT, a null before-image and the after-image returned by the
insert executor (non-null); for an UPDATE it has operation UPDATE, the stashed
before-image and the after-image returned by the update executor, both
non-null; no other statement kind produces an undo item. -/
theorem PostHandle_undo_item_shape (f : _mysqlFilter) (env : Env) (ctx : Ctx) (result : Result)
    (conn : BackendConnection) (stmt : Stmt) (hstmt : PrepareStmt ctx = some stmt)
    (c : BackendConnection) (x : String) (b : Int) (item : UndoLogItem)
    (hev : Event.insertUndoLogWithNormal c x b item ∈ (f.PostHandle env ctx result conn).2) :
    UndoItemShape env ctx result conn stmt item := by
  by_cases hcmd : CommandType ctx = env.ComStmtExecute
  · by_cases hdml : stmt.StmtNode.isDML = true
    · by_cases hhint : ∃ h ∈ stmt.StmtNode.hints, NamedXID h.HintName.String
      · rcases PostHandle_run f env ctx result conn stmt hcmd hstmt hdml hhint with
          ⟨_, _, hins⟩ | ⟨pre, lockKeys, item0, hrun, hshape⟩
        · exact absurd hev (not_mem_of_insertUndoLogCalls_zero _ hins c x b item)
        · rw [hrun.insert_event c x b item hev]
          exact hshape
      · have hno : ∀ h ∈ stmt.StmtNode.hints, ¬ NamedXID h.HintName.String :=
          fun h hm hn => hhint ⟨h, hm, hn⟩
        rw [PostHandle_unhinted f env ctx conn result stmt hstmt hno] at hev
        exact absurd hev (by simp)
    · exact absurd hev (not_mem_of_insertUndoLogCalls_zero _
        (PostHandle_not_dml_no_insert f env ctx result conn stmt hstmt hdml) c x b item)
  · unfold _mysqlFilter.PostHandle at hev
    simp only [hcmd, if_false] at hev
    exact absurd hev (by simp)

/-- C6 on a hinted prepared UPDATE of row 1 of `t` from `v = 10` to `v = 20`
with the before-image stashed: the item handed to the undo-log store is
{UPDATE, shop, t, t:1, before, after}. -/
theorem PostHandle_undo_item_shape_witness :
    UndoItemShape (stubEnv (succeedsAt 1 42) none)
      (preparedCtx (StmtNode.update { TableHints := [tableHint "xid" "gtx-1"] })
        [(beforeImage, rowsBefore)])
      { LastInsertId := 0, AffectedRows := 1 } { DataSourceName := "ds0" }
      { StmtNode := StmtNode.update { TableHints := [tableHint "xid" "gtx-1"] },
        BindVars := [("1", "1")] }
      (buildUndoItem SQLType.SQLType_UPDATE "shop" "t" "t:1" (some rowsBefore) (some rowsAfter)) :=
  PostHandle_undo_item_shape (filterWith 3) (stubEnv (succeedsAt 1 42) none)
    (preparedCtx (StmtNode.update { TableHints := [tableHint "xid" "gtx-1"] })
      [(beforeImage, rowsBefore)])
    { LastInsertId := 0, AffectedRows := 1 } { DataSourceName := "ds0" }
    { StmtNode := StmtNode.update { TableHints := [tableHint "xid" "gtx-1"] },
      BindVars := [("1", "1")] }
    rfl { DataSourceName := "ds0" } "gtx-1" 42
    (buildUndoItem SQLType.SQLType_UPDATE "shop" "t" "t:1" (some rowsBefore) (some rowsAfter))
    (by decide)

/-- C7 (amended): for every hinted DELETE, INSERT or UPDATE executed as a
prepared statement by a filter with lock_retry_times >= 1 for which PostHandle
returns no error, a BranchRegisterLocal call succeeded and exactly one
InsertUndoLogWithNormal call was made, after it; the XID of the registration
request and of the undo-log insert both equal the XID from the statement's
hint, the branch ID passed to the undo-log insert is the branch ID returned by
the successful registration, and the lock key in the registration request
equals the lock key stored in the undo item. -/
theorem PostHandle_success_registers_then_logs (f : _mysqlFilter) (env : Env) (ctx : Ctx)
    (result : Result) (conn : BackendConnection) (stmt : Stmt)
    (hcmd : CommandType ctx = env.ComStmtExecute) (hstmt : PrepareStmt ctx = some stmt)
    (hdml : stmt.StmtNode.isDML = true)
    (hhint : ∃ h ∈ stmt.StmtNode.hints, NamedXID h.HintName.String)
    (hN : 1 ≤ f.lockRetryTimes)
    (hok : (f.PostHandle env ctx result conn).1 = none) :
    ∃ (pre mid : List Event) (req : BranchRegisterRequest) (b : Int) (item : UndoLogItem),
      (f.PostHandle env ctx result conn).2 =
          pre ++ Event.branchRegisterLocal req ::
            (mid ++ [Event.insertUndoLogWithNormal conn (hasXIDHint stmt.StmtNode.hints).2 b
              item]) ∧
        env.BranchRegisterLocal (registerCalls pre) req = (b, none) ∧
        registerCalls mid = 0 ∧ insertUndoLogCalls pre = 0 ∧ insertUndoLogCalls mid = 0 ∧
        insertUndoLogCalls (f.PostHandle env ctx result conn).2 = 1 ∧
        req.XID = (hasXIDHint stmt.StmtNode.hints).2 ∧
        req.ResourceID = conn.DataSourceName ∧
        req.LockKey = item.lockKey ∧
        UndoItemShape env ctx result conn stmt item ∧
        env.InsertUndoLogWithNormal conn (hasXIDHint stmt.StmtNode.hints).2 b item = none := by
  rcases PostHandle_run f env ctx result conn stmt hcmd hstmt hdml hhint with
    ⟨⟨e, he⟩, _, _⟩ | ⟨pre, lockKeys, item, ⟨hpre, hpreIns, hkey, hrun⟩, hshape⟩
  · rw [hok] at he
    exact absurd he (by simp)
  · rcases hrun with ⟨e, _, hout⟩ | ⟨hnil, format, hout⟩
    · rw [hout] at hok
      exact absurd hok (by simp)
    · obtain ⟨pre1, hev, hresp, hins1⟩ :=
        registerBranchTransaction_nil_error f env _ conn.DataSourceName lockKeys hN hnil
      refine ⟨pre ++ pre1, [Event.logDebugf format (LogArg.int
          (f.registerBranchTransaction env (hasXIDHint stmt.StmtNode.hints).2
            conn.DataSourceName lockKeys).1.1)],
        f.branchRegisterRequest (hasXIDHint stmt.StmtNode.hints).2 conn.DataSourceName lockKeys,
        (f.registerBranchTransaction env (hasXIDHint stmt.StmtNode.hints).2
          conn.DataSourceName lockKeys).1.1, item, ?_, ?_, rfl, ?_, rfl, ?_, rfl, rfl,
        hkey.symm, hshape, ?_⟩
      · rw [hout]
        simp only [hev, List.append_assoc, List.singleton_append, List.cons_append,
          List.nil_append]
      · rw [registerCalls_append, hpre, Nat.zero_add]
        exact hresp
      · rw [insertUndoLogCalls_append, hpreIns, hins1]
      · rw [hout]
        simp only [insertUndoLogCalls_append, hpreIns,
          registerBranchTransaction_no_insert f env _ conn.DataSourceName lockKeys]
        rfl
      · rw [hout] at hok
        exact hok

/-- C7 (amended) on a hinted prepared DELETE whose registration conflicts once
and then succeeds with branch ID 42. -/
theorem PostHandle_success_registers_then_logs_witness :
    ∃ (pre mid : List Event) (req : BranchRegisterRequest) (b : Int) (item : UndoLogItem),
      ((filterWith 3).PostHandle (stubEnv (succeedsAt 2 42) none)
          (preparedCtx (StmtNode.delete { TableHints := [tableHint "xid" "gtx-1"] })
            [(beforeImage, rowsBefore)])
          { LastInsertId := 0, AffectedRows := 1 } { DataSourceName := "ds0" }).2 =
          pre ++ Event.branchRegisterLocal req ::
            (mid ++ [Event.insertUndoLogWithNormal { DataSourceName := "ds0" } "gtx-1" b
              item]) ∧
        (stubEnv (succeedsAt 2 42) none).BranchRegisterLocal (registerCalls pre) req
          = (b, none) ∧
        registerCalls mid = 0 ∧ insertUndoLogCalls pre = 0 ∧ insertUndoLogCalls mid = 0 ∧
        insertUndoLogCalls ((filterWith 3).PostHandle (stubEnv (succeedsAt 2 42) none)
          (preparedCtx (StmtNode.delete { TableHints := [tableHint "xid" "gtx-1"] })
            [(beforeImage, rowsBefore)])
          { LastInsertId := 0, AffectedRows := 1 } { DataSourceName := "ds0" }).2 = 1 ∧
        req.XID = "gtx-1" ∧ req.ResourceID = "ds0" ∧ req.LockKey = item.lockKey ∧
        UndoItemShape (stubEnv (succeedsAt 2 42) none)
          (preparedCtx (StmtNode.delete { TableHints := [tableHint "xid" "gtx-1"] })
            [(beforeImage, rowsBefore)])
          { LastInsertId := 0, AffectedRows := 1 } { DataSourceName := "ds0" }
          { StmtNode := StmtNode.delete { TableHints := [tableHint "xid" "gtx-1"] },
            BindVars := [("1", "1")] } item ∧
        (stubEnv (succeedsAt 2 42) none).InsertUndoLogWithNormal { DataSourceName := "ds0" }
          "gtx-1" b item = none :=
  PostHandle_success_registers_then_logs (filterWith 3) (stubEnv (succeedsAt 2 42) none)
    (preparedCtx (StmtNode.delete { TableHints := [tableHint "xid" "gtx-1"] })
      [(beforeImage, rowsBefore)])
    { LastInsertId := 0, AffectedRows := 1 } { DataSourceName := "ds0" }
    { StmtNode := StmtNode.delete { TableHints := [tableHint "xid" "gtx-1"] },
      BindVars := [("1", "1")] }
    rfl rfl rfl ⟨tableHint "xid" "gtx-1", by decide, by decide⟩ (by decide) (by decide)

/-- C7 as stated fails: with lock_retry_times = 0 (the value stored when the
configuration omits it) PostHandle of a hinted prepared DELETE returns no error
and inserts the undo log under branch ID 0 although no BranchRegisterLocal call
was made; and for a hinted DELETE that is not a prepared-statement execution
PostHandle returns no error and makes neither call. -/
theorem PostHandle_success_without_registration :
    (((filterWith 0).PostHandle (stubEnv (succeedsAt 1 42) none)
        (preparedCtx (StmtNode.delete { TableHints := [tableHint "xid" "gtx-1"] })
          [(beforeImage, rowsBefore)])
        { LastInsertId := 0, AffectedRows := 1 } { DataSourceName := "ds0" }).1 = none ∧
      registerCalls ((filterWith 0).PostHandle (stubEnv (succeedsAt 1 42) none)
        (preparedCtx (StmtNode.delete { TableHints := [tableHint "xid" "gtx-1"] })
          [(beforeImage, rowsBefore)])
        { LastInsertId := 0, AffectedRows := 1 } { DataSourceName := "ds0" }).2 = 0 ∧
      Event.insertUndoLogWithNormal { DataSourceName := "ds0" } "gtx-1" 0
          (buildUndoItem SQLType.SQLType_DELETE "shop" "t" "t:1" (some rowsBefore) none) ∈
        ((filterWith 0).PostHandle (stubEnv (succeedsAt 1 42) none)
          (preparedCtx (StmtNode.delete { TableHints := [tableHint "xid" "gtx-1"] })
            [(beforeImage, rowsBefore)])
          { LastInsertId := 0, AffectedRows := 1 } { DataSourceName := "ds0" }).2) ∧
    (filterWith 3).PostHandle (stubEnv (succeedsAt 1 42) none)
        (queryCtx (StmtNode.delete { TableHints := [tableHint "xid" "gtx-1"] })
          [(beforeImage, rowsBefore)])
        { LastInsertId := 0, AffectedRows := 1 } { DataSourceName := "ds0" } = (none, []) := by
  decide

/-- C8: for every hinted DELETE or UPDATE executed as a prepared statement, if
no before-image is stashed in the per-execution context under the key
"BeforeImage" when PostHandle runs, PostHandle returns an error and emits no
event, so it calls neither BranchRegisterLocal nor InsertUndoLogWithNormal. -/
theorem PostHandle_missing_before_image (f : _mysqlFilter) (env : Env) (ctx : Ctx)
    (result : Result) (conn : BackendConnection) (stmt : Stmt)
    (hcmd : CommandType ctx = env.ComStmtExecute) (hstmt : PrepareStmt ctx = some stmt)
    (hkind : (∃ s, stmt.StmtNode = StmtNode.delete s) ∨ (∃ s, stmt.StmtNode = StmtNode.update s))
    (hhint : ∃ h ∈ stmt.StmtNode.hints, NamedXID h.HintName.String)
    (hvar : Variable ctx "BeforeImage" = none) :
    (∃ e, (f.PostHandle env ctx result conn).1 = some e) ∧
      (f.PostHandle env ctx result conn).2 = [] ∧
      registerCalls (f.PostHandle env ctx result conn).2 = 0 ∧
      insertUndoLogCalls (f.PostHandle env ctx result conn).2 = 0 := by
  have hx := (hasXIDHint_fst_iff _).2 hhint
  have hvar1 : Variable ctx beforeImage = none := hvar
  have hout : f.PostHandle env ctx result conn =
      (some (errorsNew "before image should not be nil"), []) := by
    unfold _mysqlFilter.PostHandle
    simp only [hcmd, if_true, hstmt]
    rcases hkind with ⟨s, hnode⟩ | ⟨s, hnode⟩
    · rw [hnode] at hx
      simp only [hnode, _mysqlFilter.processAfterDelete, StmtNode.hints] at hx ⊢
      simp only [hx, Bool.true_eq_false, if_false, hvar1]
    · rw [hnode] at hx
      simp only [hnode, _mysqlFilter.processAfterUpdate, StmtNode.hints] at hx ⊢
      simp only [hx, Bool.true_eq_false, if_false, hvar1]
  rw [hout]
  exact ⟨⟨_, rfl⟩, rfl, rfl, rfl⟩

/-- C8 on a hinted prepared UPDATE whose context holds no variable. -/
theorem PostHandle_missing_before_image_witness :
    (∃ e, ((filterWith 3).PostHandle (stubEnv (succeedsAt 1 42) none)
        (preparedCtx (StmtNode.update { TableHints := [tableHint "XID" "gtx-1"] }) [])
        { LastInsertId := 0, AffectedRows := 1 } { DataSourceName := "ds0" }).1 = some e) ∧
      ((filterWith 3).PostHandle (stubEnv (succeedsAt 1 42) none)
        (preparedCtx (StmtNode.update { TableHints := [tableHint "XID" "gtx-1"] }) [])
        { LastInsertId := 0, AffectedRows := 1 } { DataSourceName := "ds0" }).2 = [] :=
  have h := PostHandle_missing_before_image (filterWith 3) (stubEnv (succeedsAt 1 42) none)
    (preparedCtx (StmtNode.update { TableHints := [tableHint "XID" "gtx-1"] }) [])
    { LastInsertId := 0, AffectedRows := 1 } { DataSourceName := "ds0" }
    { StmtNode := StmtNode.update { TableHints := [tableHint "XID" "gtx-1"] },
      BindVars := [("1", "1")] }
    rfl rfl (Or.inr ⟨_, rfl⟩) ⟨tableHint "XID" "gtx-1", by decide, by decide⟩ rfl
  ⟨h.1, h.2.1⟩

/-- C9: for every hinted DELETE, INSERT or UPDATE executed as a prepared
statement, PostHandle either fails before the registration (no coordinator or
undo-log call), or it runs registerBranchTransaction once, and then: if
registerBranchTransaction returns an error, PostHandle returns that same error
and does not call InsertUndoLogWithNormal; otherwise it calls
InsertUndoLogWithNormal exactly once and returns what that call returns, so an
error of InsertUndoLogWithNormal is the error PostHandle returns. -/
theorem PostHandle_propagates_errors (f : _mysqlFilter) (env : Env) (ctx : Ctx)
    (result : Result) (conn : BackendConnection) (stmt : Stmt)
    (hcmd : CommandType ctx = env.ComStmtExecute) (hstmt : PrepareStmt ctx = some stmt)
    (hdml : stmt.StmtNode.isDML = true)
    (hhint : ∃ h ∈ stmt.StmtNode.hints, NamedXID h.HintName.String) :
    ((∃ e, (f.PostHandle env ctx result conn).1 = some e) ∧
        registerCalls (f.PostHandle env ctx result conn).2 = 0 ∧
        insertUndoLogCalls (f.PostHandle env ctx result conn).2 = 0) ∨
      ∃ (pre : List Event) (lockKeys : String) (item : UndoLogItem),
        registerCalls pre = 0 ∧ insertUndoLogCalls pre = 0 ∧ item.lockKey = lockKeys ∧
        UndoItemShape env ctx result conn stmt item ∧
        (∀ e, (f.registerBranchTransaction env (hasXIDHint stmt.StmtNode.hints).2
              conn.DataSourceName lockKeys).1.2 = some e →
          (f.PostHandle env ctx result conn).1 = some e ∧
            (f.PostHandle env ctx result conn).2 = pre ++
              (f.registerBranchTransaction env (hasXIDHint stmt.StmtNode.hints).2
                conn.DataSourceName lockKeys).2 ∧
            insertUndoLogCalls (f.PostHandle env ctx result conn).2 = 0) ∧
        ((f.registerBranchTransaction env (hasXIDHint stmt.StmtNode.hints).2
              conn.DataSourceName lockKeys).1.2 = none →
          (f.PostHandle env ctx result conn).1 =
              env.InsertUndoLogWithNormal conn (hasXIDHint stmt.StmtNode.hints).2
                (f.registerBranchTransaction env (hasXIDHint stmt.StmtNode.hints).2
                  conn.DataSourceName lockKeys).1.1 item ∧
            (∃ evs, (f.PostHandle env ctx result conn).2 = evs ++
              [Event.insertUndoLogWithNormal conn (hasXIDHint stmt.StmtNode.hints).2
                (f.registerBranchTransaction env (hasXIDHint stmt.StmtNode.hints).2
                  conn.DataSourceName lockKeys).1.1 item]) ∧
            insertUndoLogCalls (f.PostHandle env ctx result conn).2 = 1) := by
  rcases PostHandle_run f env ctx result conn stmt hcmd hstmt hdml hhint with
    hearly | ⟨pre, lockKeys, item, ⟨hpre, hpreIns, hkey, hrun⟩, hshape⟩
  · exact Or.inl hearly
  · right
    refine ⟨pre, lockKeys, item, hpre, hpreIns, hkey, hshape, ?_, ?_⟩
    · intro e he
      rcases hrun with ⟨e1, he1, hout⟩ | ⟨hnil, _, _⟩
      · rw [he1] at he
        injection he with he
        subst he
        rw [hout]
        refine ⟨rfl, rfl, ?_⟩
        simp only [insertUndoLogCalls_append, hpreIns,
          registerBranchTransaction_no_insert f env _ conn.DataSourceName lockKeys]
      · rw [hnil] at he
        exact absurd he (by simp)
    · intro hnil
      rcases hrun with ⟨e1, he1, _⟩ | ⟨_, format, hout⟩
      · rw [he1] at hnil
        exact absurd hnil (by simp)
      · rw [hout]
        refine ⟨rfl, ⟨pre ++ (f.registerBranchTransaction env (hasXIDHint stmt.StmtNode.hints).2
          conn.DataSourceName lockKeys).2 ++ [Event.logDebugf format (LogArg.int
            (f.registerBranchTransaction env (hasXIDHint stmt.StmtNode.hints).2
              conn.DataSourceName lockKeys).1.1)], by simp⟩, ?_⟩
        simp only [insertUndoLogCalls_append, hpreIns,
          registerBranchTransaction_no_insert f env _ conn.DataSourceName lockKeys]
        rfl

/-- C9 on a hinted prepared INSERT against a coordinator that always reports
the lock conflict, with a budget of two attempts: PostHandle returns the
conflict error of the registration and makes no undo-log call. -/
theorem PostHandle_propagates_errors_witness :
    ((filterWith 2).registerBranchTransaction (stubEnv alwaysConflict none) "gtx-1" "ds0"
        "t:1").1.2 = some BranchLockAcquireFailed ∧
      ((filterWith 2).PostHandle (stubEnv alwaysConflict none)
        (preparedCtx (StmtNode.insert { TableHints := [tableHint "xid" "gtx-1"] }) [])
        { LastInsertId := 5, AffectedRows := 1 } { DataSourceName := "ds0" }).1 =
        some BranchLockAcquireFailed ∧
      insertUndoLogCalls ((filterWith 2).PostHandle (stubEnv alwaysConflict none)
        (preparedCtx (StmtNode.insert { TableHints := [tableHint "xid" "gtx-1"] }) [])
        { LastInsertId := 5, AffectedRows := 1 } { DataSourceName := "ds0" }).2 = 0 := by
  have h := PostHandle_propagates_errors (filterWith 2) (stubEnv alwaysConflict none)
    (preparedCtx (StmtNode.insert { TableHints := [tableHint "xid" "gtx-1"] }) [])
    { LastInsertId := 5, AffectedRows := 1 } { DataSourceName := "ds0" }
    { StmtNode := StmtNode.insert { TableHints := [tableHint "xid" "gtx-1"] },
      BindVars := [("1", "1")] }
    rfl rfl rfl ⟨tableHint "xid" "gtx-1", by decide, by decide⟩
  refine ⟨rfl, ?_⟩
  rcases h with ⟨_, hreg, _⟩ | ⟨pre, lockKeys, item, _, _, hkey, hshape, hfail, _⟩
  · exact absurd hreg (by decide)
  · obtain ⟨_, _, ai, hai, _, hlock⟩ := hshape
    have hlk : lockKeys = "t:1" := by rw [← hkey, hlock]; rfl
    subst hlk
    obtain ⟨h1, _, h3⟩ := hfail BranchLockAcquireFailed rfl
    exact ⟨h1, h3⟩

end Dbpack
